import Mathlib

/-!
Chess rule engine: the turn controller.

A shallow embedding of `chess-game/chess-logic/controller.cpp`.  The controller
sequences moves on a `State` (board, two players, promotion bookkeeping) and
delegates move generation to `SpecialMovesHandler` and check detection to
`CheckChecker`.  Those two collaborators are taken as parameters; the value
types the controller works on (`Coordinate`, `Piece`, `Player`, `State`) are
modelled from the data model of the specification.

Functions whose C++ original dereferences a null or destroyed pointer, or
indexes the board outside its 8×8 range, return `none` on those inputs.
-/

namespace Chess

/-! ## Value types -/

/-- Modelled from the spec: the `Color` enumeration (`cWhite`, `cBlack` in the source). -/
inductive Color where
  | cWhite
  | cBlack
  deriving DecidableEq

/-- Modelled from the spec: the `Piece::PieceType` enumeration, with the
enumerator names the controller uses. -/
inductive PieceType where
  | ptKing
  | ptQueen
  | ptRook
  | ptBishop
  | ptKnight
  | ptPawn
  deriving DecidableEq

/-- Modelled from the spec: the `Coordinate` value type, a pair of C++ `int`s.
The controller only ever adds or subtracts 1 or 2 to the column of a coordinate
that was already used to index the board, so no `int` overflow can occur and
the components are plain integers. -/
structure Coordinate where
  row : Int
  column : Int
  deriving DecidableEq

namespace Coordinate

def getRow (c : Coordinate) : Int := c.row

def getColumn (c : Coordinate) : Int := c.column

/-- Modelled from the spec: `isInBoard()` validates that row and column are both in `[0,7]`. -/
def isInBoard (c : Coordinate) : Bool :=
  decide (0 ≤ c.row) && decide (c.row ≤ 7) && decide (0 ≤ c.column) && decide (c.column ≤ 7)

end Coordinate

/-- Modelled from the spec: the attributes of a `Piece` (colour, type tag, moved-flag). -/
structure Piece where
  color : Color
  type : PieceType
  moved : Bool
  deriving DecidableEq

namespace Piece

def getType (p : Piece) : PieceType := p.type

def getColor (p : Piece) : Color := p.color

/-- The piece after `setMoved()`. -/
def setMoved (p : Piece) : Piece := { p with moved := true }

end Piece

/-- Modelled from the spec: `new Queen(color)`, a fresh piece that has not moved. -/
def Queen (color : Color) : Piece := { color := color, type := PieceType.ptQueen, moved := false }

/-- Modelled from the spec: `new Knight(color)`. -/
def Knight (color : Color) : Piece := { color := color, type := PieceType.ptKnight, moved := false }

/-- Modelled from the spec: `new Rook(color)`. -/
def Rook (color : Color) : Piece := { color := color, type := PieceType.ptRook, moved := false }

/-- Modelled from the spec: `new Bishop(color)`. -/
def Bishop (color : Color) : Piece := { color := color, type := PieceType.ptBishop, moved := false }

/-- The `Piece*` a `Cell` stores (`cell.h`): the null pointer, a pointer to the
piece the cell owns, or a pointer whose piece has been destroyed by `delete`.
A piece is owned by exactly one cell, so it is stored in the cell by value. -/
inductive PiecePtr where
  | nullptr
  | pointsTo (piece : Piece)
  | dangling
  deriving DecidableEq

namespace PiecePtr

/-- Dereferencing (`p->...`): undefined for the null pointer and for a destroyed piece. -/
def deref : PiecePtr → Option Piece
  | nullptr => none
  | pointsTo piece => some piece
  | dangling => none

/-- The C++ `delete p`: a no-op on the null pointer, undefined on a piece that was
already destroyed. -/
def delete : PiecePtr → Option Unit
  | nullptr => some ()
  | pointsTo _ => some ()
  | dangling => none

end PiecePtr

/-- The `Coordinate*` that `State` keeps for the pawn awaiting promotion
(`setPawnInPromotionCoordinates(Coordinate*)`, `getPawnInPromotionCoordinates()`):
the null pointer, a pointer to a live `Coordinate` object whose value is
`coordinate`, or a pointer whose object has been destroyed. -/
inductive CoordinatePtr where
  | nullptr
  | pointsTo (coordinate : Coordinate)
  | dangling
  deriving DecidableEq

namespace CoordinatePtr

/-- Dereferencing (`*p`): undefined for the null pointer and for a destroyed object. -/
def deref : CoordinatePtr → Option Coordinate
  | nullptr => none
  | pointsTo coordinate => some coordinate
  | dangling => none

end CoordinatePtr

/-- Modelled from the spec: a `Player` record (name, colour, in-check and in-checkmate flags). -/
structure Player where
  name : String
  color : Color
  inCheck : Bool
  inCheckmate : Bool
  deriving DecidableEq

namespace Player

def getColor (p : Player) : Color := p.color

def setInCheck (p : Player) (b : Bool) : Player := { p with inCheck := b }

def setInCheckmate (p : Player) (b : Bool) : Player := { p with inCheckmate := b }

end Player

/-- Modelled from the spec: the `State` class.  It owns the 8×8 board, the two
players, the selector of the player in turn, a game-type tag, and the
pawn-promotion bookkeeping (pending flag and the cached `Coordinate*`, which
`State` stores and hands back as a pointer).  `board` gives the pointer held by
each cell; only the 64 entries with an on-board coordinate are ever read or
written. -/
structure State where
  board : Coordinate → PiecePtr
  player1 : Player
  player2 : Player
  currentIsFirst : Bool
  gameType : Nat
  inPawnPromotion : Bool
  pawnInPromotionCoordinates : CoordinatePtr

namespace State

/-- Modelled from the spec: `State::getPiece`, the pointer stored in the cell at
`coordinate`; indexing outside the 8×8 grid is undefined. -/
def getPiece (s : State) (coordinate : Coordinate) : Option PiecePtr :=
  if coordinate.isInBoard then some (s.board coordinate) else none

/-- Modelled from the spec: `State::setPiece`, which overwrites the pointer stored
in the cell at `coordinate`; indexing outside the 8×8 grid is undefined. -/
def setPiece (s : State) (piece : PiecePtr) (coordinate : Coordinate) : Option State :=
  if coordinate.isInBoard then
    some { s with board := fun c => if c = coordinate then piece else s.board c }
  else none

/-- The effect of `p->setMoved()` for the pointer `p` stored in the cell at
`coordinate`: the piece that cell owns gets its moved-flag set.  Undefined when the
cell is off the board or its pointer is null or dangling. -/
def setMovedAt (s : State) (coordinate : Coordinate) : Option State := do
  let ptr ← s.getPiece coordinate
  let piece ← ptr.deref
  s.setPiece (PiecePtr.pointsTo piece.setMoved) coordinate

/-- Modelled from the spec: `State::getCurrentPlayer`, the player in turn. -/
def getCurrentPlayer (s : State) : Player :=
  if s.currentIsFirst then s.player1 else s.player2

/-- The player record selected by `isFirst`: the first player when it is `true`. -/
def selectPlayer (s : State) (isFirst : Bool) : Player :=
  if isFirst then s.player1 else s.player2

/-- The player who is not in turn. -/
def getOtherPlayer (s : State) : Player :=
  if s.currentIsFirst then s.player2 else s.player1

/-- Modelled from the spec: `State::nextPlayer`, which advances the current-player
pointer to the other of the two `Player` records. -/
def nextPlayer (s : State) : State := { s with currentIsFirst := !s.currentIsFirst }

/-- The effect of `state.getCurrentPlayer()->setInCheck(b)`. -/
def setCurrentInCheck (s : State) (b : Bool) : State :=
  if s.currentIsFirst then { s with player1 := s.player1.setInCheck b }
  else { s with player2 := s.player2.setInCheck b }

/-- The effect of `state.getCurrentPlayer()->setInCheckmate(b)`. -/
def setCurrentInCheckmate (s : State) (b : Bool) : State :=
  if s.currentIsFirst then { s with player1 := s.player1.setInCheckmate b }
  else { s with player2 := s.player2.setInCheckmate b }

def isInPownPromotion (s : State) : Bool := s.inPawnPromotion

def setInPawnPromotion (s : State) (b : Bool) : State := { s with inPawnPromotion := b }

def getPawnInPromotionCoordinates (s : State) : CoordinatePtr := s.pawnInPromotionCoordinates

def setPawnInPromotionCoordinates (s : State) (p : CoordinatePtr) : State :=
  { s with pawnInPromotionCoordinates := p }

end State

/-! ## Collaborators taken as parameters -/

/-- The static interface of `SpecialMovesHandler` (`specialmoveshandler.h`); its
implementation is not part of the development. -/
structure SpecialMovesHandler where
  getValidMoves : State → Coordinate → List Coordinate

/-- The static interface of `CheckChecker` as the controller calls it; its
implementation is not part of the development. -/
structure CheckChecker where
  filterCheckMoves : State → List Coordinate → Coordinate → List Coordinate
  checkForCheck : State → Bool
  checkForCheckmate : State → Bool

/-! ## The controller (`controller.cpp`) -/

namespace Controller

/-- `Controller::getValidMoves`. -/
def getValidMoves (smh : SpecialMovesHandler) (cc : CheckChecker) (state : State)
    (click : Coordinate) : List Coordinate :=
  if !click.isInBoard then
    []
  else
    cc.filterCheckMoves state (smh.getValidMoves state click) click

/-- `Controller::getPiece`. -/
def getPiece (state : State) (coordinate : Coordinate) : Option PiecePtr :=
  state.getPiece coordinate

/-- `Controller::getCurrentPlayer`. -/
def getCurrentPlayer (state : State) : Player := state.getCurrentPlayer

/-- `Controller::isLeftCastle`: the move is a queenside castling. -/
def isLeftCastle (pieceType : PieceType) (source target : Coordinate) : Bool :=
  pieceType == PieceType.ptKing && target.getColumn == source.getColumn - 2

/-- `Controller::isRightCastle`: the move is a kingside castling. -/
def isRightCastle (pieceType : PieceType) (source target : Coordinate) : Bool :=
  pieceType == PieceType.ptKing && target.getColumn == source.getColumn + 2

/-- `Controller::changePlayer`. -/
def changePlayer (cc : CheckChecker) (state : State) : State :=
  let s1 := state.nextPlayer
  if cc.checkForCheck s1 then
    let s2 := s1.setCurrentInCheck true
    s2.setCurrentInCheckmate (cc.checkForCheckmate s2)
  else
    s1

/-- `Controller::doCastle`.  `sourcePiece` is the king read from `source`.
`movePiece` calls it with four coordinates in four different columns, so after
the four `setPiece` calls the king is owned by the cell at `target` and the rook
pointer by the cell at `rookTarget`; the two `setMoved()` calls act there. -/
def doCastle (cc : CheckChecker) (state : State) (sourcePiece : Piece)
    (source rookTarget target rookSource : Coordinate) : Option State := do
  let rook ← state.getPiece rookSource
  let s1 ← state.setPiece (PiecePtr.pointsTo sourcePiece) target
  let s2 ← s1.setPiece PiecePtr.nullptr source
  let s3 ← s2.setPiece rook rookTarget
  let s4 ← s3.setPiece PiecePtr.nullptr rookSource
  let s5 ← s4.setMovedAt target
  let s6 ← s5.setMovedAt rookTarget
  some (changePlayer cc s6)

/-- `Controller::checkAndSetPawnPromotion`.  `pieceCoordinate` is a reference
parameter (`Coordinate&`) and the function caches its address,
`&pieceCoordinate`: a pointer to the caller's object, valid for as long as that
object lives. -/
def checkAndSetPawnPromotion (state : State) (sourcePiece : Piece)
    (pieceCoordinate : Coordinate) : State :=
  if sourcePiece.getType == PieceType.ptPawn &&
      ((sourcePiece.getColor == Color.cWhite && pieceCoordinate.getRow == 0) ||
       (sourcePiece.getColor == Color.cBlack && pieceCoordinate.getRow == 7)) then
    (state.setInPawnPromotion true).setPawnInPromotionCoordinates
      (CoordinatePtr.pointsTo pieceCoordinate)
  else
    state

/-- Not a function of the source but the effect of a `return`: the end of a
`movePiece` call whose last branch ran
`checkAndSetPawnPromotion(sourcePiece, target)`.  `target` is a by-value
parameter of `movePiece`, so it is destroyed when the call returns: if that
call cached its address (the condition of `checkAndSetPawnPromotion` held), the
cached pointer dangles from then on.  A pointer cached earlier is not touched. -/
def targetDestroyed (state : State) (sourcePiece : Piece) (target : Coordinate) : State :=
  if sourcePiece.getType == PieceType.ptPawn &&
      ((sourcePiece.getColor == Color.cWhite && target.getRow == 0) ||
       (sourcePiece.getColor == Color.cBlack && target.getRow == 7)) then
    state.setPawnInPromotionCoordinates CoordinatePtr.dangling
  else
    state

/-- `Controller::movePiece`.  In the last branch `delete targetPiece` destroys
the piece on `target`; when `target` is `source` that piece is `sourcePiece`
itself, which the code goes on to use, so the call is undefined.  The last
branch hands its own parameter `target` to `checkAndSetPawnPromotion`, which
may cache its address; the parameter is destroyed when the call returns
(`targetDestroyed`). -/
def movePiece (cc : CheckChecker) (state : State) (source target : Coordinate) :
    Option State := do
  let sourcePtr ← state.getPiece source
  let sourcePiece ← sourcePtr.deref
  if isLeftCastle sourcePiece.getType source target then
    let rookSource : Coordinate := ⟨target.getRow, target.getColumn - 2⟩
    let rookTarget : Coordinate := ⟨target.getRow, target.getColumn + 1⟩
    doCastle cc state sourcePiece source rookTarget target rookSource
  else if isRightCastle sourcePiece.getType source target then
    let rookSource : Coordinate := ⟨target.getRow, target.getColumn + 1⟩
    let rookTarget : Coordinate := ⟨target.getRow, target.getColumn - 1⟩
    doCastle cc state sourcePiece source rookTarget target rookSource
  else
    let targetPiece ← state.getPiece target
    targetPiece.delete
    if source = target then none
    else
      let s1 ← state.setPiece (PiecePtr.pointsTo sourcePiece) target
      let s2 ← s1.setPiece PiecePtr.nullptr source
      let s3 ← s2.setMovedAt target
      let s4 := s3.setCurrentInCheck false
      let s5 := checkAndSetPawnPromotion s4 sourcePiece target
      let s6 := if !s5.isInPownPromotion then changePlayer cc s5 else s5
      some (targetDestroyed s6 sourcePiece target)

/-- `Controller::promotePown`.  The cached pointer is dereferenced first
(`*pownCoordinate`), which is undefined when it is null or dangling.
`delete pawn` leaves the cell with a dangling pointer until one of the four
branches stores the new piece there. -/
def promotePown (cc : CheckChecker) (state : State) (pieceType : PieceType) :
    Option State := do
  let pownCoordinate ← state.getPawnInPromotionCoordinates.deref
  let pawnPtr ← state.getPiece pownCoordinate
  let pawn ← pawnPtr.deref
  let pawnColor := pawn.getColor
  let s0 ← state.setPiece PiecePtr.dangling pownCoordinate
  let s1 ←
    if pieceType == PieceType.ptQueen then
      s0.setPiece (PiecePtr.pointsTo (Queen pawnColor)) pownCoordinate
    else if pieceType == PieceType.ptKnight then
      s0.setPiece (PiecePtr.pointsTo (Knight pawnColor)) pownCoordinate
    else if pieceType == PieceType.ptRook then
      s0.setPiece (PiecePtr.pointsTo (Rook pawnColor)) pownCoordinate
    else if pieceType == PieceType.ptBishop then
      s0.setPiece (PiecePtr.pointsTo (Bishop pawnColor)) pownCoordinate
    else
      some s0
  let s2 := s1.setInPawnPromotion false
  some (changePlayer cc s2)

/-- `Controller::isInPownPromotion`. -/
def isInPownPromotion (state : State) : Bool := state.isInPownPromotion

/-- `Controller::setWhitePlayerInTurn`. -/
def setWhitePlayerInTurn (state : State) : State :=
  if state.getCurrentPlayer.getColor != Color.cWhite then state.nextPlayer else state

end Controller

/-! ## Descriptions of the boards the controller produces -/

/-- The board after a castle that takes `king` from `source` to `target` and
`rook` from `rookSource` to `rookTarget`. -/
def castledBoard (b : Coordinate → PiecePtr) (king rook : Piece)
    (source rookTarget target rookSource : Coordinate) : Coordinate → PiecePtr :=
  fun x =>
    if x = target then PiecePtr.pointsTo king.setMoved
    else if x = rookTarget then PiecePtr.pointsTo rook.setMoved
    else if x = source then PiecePtr.nullptr
    else if x = rookSource then PiecePtr.nullptr
    else b x

/-- The board after an ordinary move that takes `piece` from `source` to `target`. -/
def movedBoard (b : Coordinate → PiecePtr) (piece : Piece) (source target : Coordinate) :
    Coordinate → PiecePtr :=
  fun x =>
    if x = target then PiecePtr.pointsTo piece.setMoved
    else if x = source then PiecePtr.nullptr
    else b x

/-- The state the last branch of `movePiece` has built when it tests
`isInPownPromotion`, as the caller sees it once the call has returned: `piece`
relocated from `source` to `target` and marked moved, the in-check flag of the
player in turn cleared, the promotion test run, and the parameter `target`
destroyed. -/
def afterMove (s : State) (piece : Piece) (source target : Coordinate) : State :=
  Controller.targetDestroyed
    (Controller.checkAndSetPawnPromotion
      (State.setCurrentInCheck { s with board := movedBoard s.board piece source target } false)
      piece target)
    piece target

/-- The condition `checkAndSetPawnPromotion` tests: a pawn on the far rank of its colour. -/
def reachedFarRank (piece : Piece) (c : Coordinate) : Prop :=
  piece.type = PieceType.ptPawn ∧
    ((piece.color = Color.cWhite ∧ c.row = 0) ∨ (piece.color = Color.cBlack ∧ c.row = 7))

/-- The move is a king moving exactly two columns (the castling pattern). -/
def kingTwoColumns (piece : Piece) (source target : Coordinate) : Prop :=
  piece.type = PieceType.ptKing ∧
    (target.column = source.column - 2 ∨ target.column = source.column + 2)

/-- The pointer `promotePown` leaves in the pawn's cell: the new piece for the
four types it creates, and for the other two the pointer to the pawn it destroyed. -/
def promotedPtr (pieceType : PieceType) (pawnColor : Color) : PiecePtr :=
  match pieceType with
  | PieceType.ptQueen => PiecePtr.pointsTo (Queen pawnColor)
  | PieceType.ptKnight => PiecePtr.pointsTo (Knight pawnColor)
  | PieceType.ptRook => PiecePtr.pointsTo (Rook pawnColor)
  | PieceType.ptBishop => PiecePtr.pointsTo (Bishop pawnColor)
  | PieceType.ptKing => PiecePtr.dangling
  | PieceType.ptPawn => PiecePtr.dangling

/-- The four piece types a pawn may be promoted to. -/
def promotable (t : PieceType) : Prop :=
  t = PieceType.ptQueen ∨ t = PieceType.ptRook ∨ t = PieceType.ptBishop ∨ t = PieceType.ptKnight

/-! ## Example positions and collaborators -/

def whitePlayer : Player := { name := "white", color := Color.cWhite, inCheck := false, inCheckmate := false }

def blackPlayer : Player := { name := "black", color := Color.cBlack, inCheck := false, inCheckmate := false }

def whiteKing : Piece := { color := Color.cWhite, type := PieceType.ptKing, moved := false }

def blackKing : Piece := { color := Color.cBlack, type := PieceType.ptKing, moved := false }

def whiteRook : Piece := { color := Color.cWhite, type := PieceType.ptRook, moved := false }

def whitePawn : Piece := { color := Color.cWhite, type := PieceType.ptPawn, moved := true }

def blackPawn : Piece := { color := Color.cBlack, type := PieceType.ptPawn, moved := true }

/-- White king on (7,4) with both rooks on their corners, a white pawn on (1,0),
the black king on (0,4), a black pawn on (2,7). -/
def exampleBoard : Coordinate → PiecePtr :=
  fun c =>
    if c = ⟨7, 4⟩ then PiecePtr.pointsTo whiteKing
    else if c = ⟨7, 7⟩ then PiecePtr.pointsTo whiteRook
    else if c = ⟨7, 0⟩ then PiecePtr.pointsTo whiteRook
    else if c = ⟨1, 0⟩ then PiecePtr.pointsTo whitePawn
    else if c = ⟨0, 4⟩ then PiecePtr.pointsTo blackKing
    else if c = ⟨2, 7⟩ then PiecePtr.pointsTo blackPawn
    else PiecePtr.nullptr

/-- White to move on `exampleBoard`, no promotion pending. -/
def exampleState : State :=
  { board := exampleBoard, player1 := whitePlayer, player2 := blackPlayer,
    currentIsFirst := true, gameType := 0, inPawnPromotion := false,
    pawnInPromotionCoordinates := CoordinatePtr.nullptr }

/-- The board after the white pawn of `exampleState` has stepped to (0,0), with
promotion pending, White still in turn, and a cached pointer to a live
coordinate (0,0). -/
def promotionState : State :=
  { board := movedBoard exampleBoard whitePawn ⟨1, 0⟩ ⟨0, 0⟩, player1 := whitePlayer,
    player2 := blackPlayer, currentIsFirst := true, gameType := 0, inPawnPromotion := true,
    pawnInPromotionCoordinates := CoordinatePtr.pointsTo ⟨0, 0⟩ }

/-- The state `movePiece` returns when the white pawn of `exampleState` steps
to (0,0): as `promotionState`, but the cached pointer is the address of the
destroyed parameter. -/
def danglingPromotionState : State :=
  { promotionState with pawnInPromotionCoordinates := CoordinatePtr.dangling }

/-- The state `promotePown(Queen)` returns on `promotionState`: Black is in turn,
no promotion is pending, and the cached pointer still points to (0,0). -/
def promotedState : State :=
  { board := fun c => if c = ⟨0, 0⟩ then PiecePtr.pointsTo (Queen Color.cWhite)
      else promotionState.board c,
    player1 := whitePlayer, player2 := blackPlayer, currentIsFirst := false, gameType := 0,
    inPawnPromotion := false, pawnInPromotionCoordinates := CoordinatePtr.pointsTo ⟨0, 0⟩ }

/-- A check detector that never reports check and filters nothing out. -/
def quietChecker : CheckChecker :=
  { filterCheckMoves := fun _ moves _ => moves,
    checkForCheck := fun _ => false,
    checkForCheckmate := fun _ => false }

/-- A move generator that offers every piece the square to its right and offers
nothing for a cell without a piece. -/
def stepRightMoves : SpecialMovesHandler :=
  { getValidMoves := fun s c =>
      match s.getPiece c with
      | some (PiecePtr.pointsTo _) => [⟨c.row, c.column + 1⟩]
      | _ => [] }

/-- The example position with a stale flag: Black, who is not in turn, still
carries a raised in-check flag. -/
def staleCheckState : State :=
  { exampleState with player2 := { blackPlayer with inCheck := true } }

/-- A check detector that reports check and checkmate on every state. -/
def alarmChecker : CheckChecker :=
  { filterCheckMoves := fun _ moves _ => moves,
    checkForCheck := fun _ => true,
    checkForCheckmate := fun _ => true }

/-- The flag predicate of the data model: for each of the two players, a raised
in-checkmate flag comes with a raised in-check flag. -/
def flagInvariant (s : State) : Prop :=
  (s.player1.inCheckmate = true → s.player1.inCheck = true) ∧
    (s.player2.inCheckmate = true → s.player2.inCheck = true)

/-- The example position with White, who is in turn, flagged as checkmated. -/
def matedState : State :=
  { exampleState with player1 := { whitePlayer with inCheck := true, inCheckmate := true } }

/-- The example position with Black in turn. -/
def blackToMoveState : State :=
  { exampleState with currentIsFirst := false }

/-- A move generator that offers a piece the square to its right and the square
one row up, each only when it is an empty cell of the board, and offers nothing
for a cell without a piece. -/
def freeStepMoves : SpecialMovesHandler :=
  { getValidMoves := fun s c =>
      match s.getPiece c with
      | some (PiecePtr.pointsTo _) =>
        ([⟨c.row, c.column + 1⟩, ⟨c.row - 1, c.column⟩] : List Coordinate).filter
          fun t => decide (s.getPiece t = some PiecePtr.nullptr)
      | _ => [] }

/-! ## Counting kings -/

/-- The row and column indices of the board. -/
def boardIndices : List Int := [0, 1, 2, 3, 4, 5, 6, 7]

/-- The 64 coordinates of the board, row by row. -/
def allCoordinates : List Coordinate :=
  boardIndices.flatMap fun r => boardIndices.map fun c => ⟨r, c⟩

/-- The pointer refers to a king of colour `k`. -/
def isKingOf (k : Color) (ptr : PiecePtr) : Bool :=
  match ptr with
  | PiecePtr.pointsTo p => p.type == PieceType.ptKing && p.color == k
  | _ => false

/-- The number of board cells that hold a king of colour `k`. -/
def kingCount (b : Coordinate → PiecePtr) (k : Color) : Nat :=
  allCoordinates.countP fun c => isKingOf k (b c)

/-- The board holds exactly one king of each colour. -/
def oneKingEach (s : State) : Prop :=
  kingCount s.board Color.cWhite = 1 ∧ kingCount s.board Color.cBlack = 1

/-! ## The check filter, modelled from the specification -/

/-- Modelled from the spec: the board after "executing the move" as §4.4
describes `movePiece` (step 1: a king moving two columns is a castle, which
relocates the king and the rook of that side, clears their origin cells and
marks both moved; step 2: any other move destroys the piece occupying `target`,
relocates the source piece there, clears the source cell and marks the piece
moved).  This is the board `CheckChecker::filterCheckMoves`, whose code is
missing, has to look at when it simulates a candidate move.  It is `none` when
the move cannot be carried out: no piece on `source`, a cell off the board, no
rook to castle with, or `target` equal to `source`. -/
def executedBoard (s : State) (source target : Coordinate) :
    Option (Coordinate → PiecePtr) :=
  match s.getPiece source with
  | some (PiecePtr.pointsTo piece) =>
    if piece.type = PieceType.ptKing ∧ target.column = source.column - 2 then
      match s.getPiece ⟨target.row, target.column - 2⟩ with
      | some (PiecePtr.pointsTo rook) =>
        if target.isInBoard = true ∧
            Coordinate.isInBoard ⟨target.row, target.column + 1⟩ = true then
          some (castledBoard s.board piece rook source ⟨target.row, target.column + 1⟩ target
            ⟨target.row, target.column - 2⟩)
        else none
      | _ => none
    else if piece.type = PieceType.ptKing ∧ target.column = source.column + 2 then
      match s.getPiece ⟨target.row, target.column + 1⟩ with
      | some (PiecePtr.pointsTo rook) =>
        if target.isInBoard = true ∧
            Coordinate.isInBoard ⟨target.row, target.column - 1⟩ = true then
          some (castledBoard s.board piece rook source ⟨target.row, target.column - 1⟩ target
            ⟨target.row, target.column + 1⟩)
        else none
      | _ => none
    else
      match s.getPiece target with
      | some PiecePtr.nullptr =>
        if source = target then none else some (movedBoard s.board piece source target)
      | some (PiecePtr.pointsTo _) =>
        if source = target then none else some (movedBoard s.board piece source target)
      | _ => none
  | _ => none

/-- Modelled from the spec: `CheckChecker::filterCheckMoves`, whose code is
missing.  "For each candidate target, simulate executing the move, recompute
checkForCheck for the mover's own king; retain the candidate only if the king is
not attacked afterward."  The mover is the player in turn; `attacked b k` stands
for the missing piece-movement model and says whether, on board `b`, the king of
colour `k` is attacked by an opposing piece. -/
def filterBySimulation (attacked : (Coordinate → PiecePtr) → Color → Bool) (s : State)
    (candidateMoves : List Coordinate) (sourceClick : Coordinate) : List Coordinate :=
  candidateMoves.filter fun t =>
    match executedBoard s sourceClick t with
    | some b => !attacked b s.getCurrentPlayer.color
    | none => false

/-- Modelled from the spec: the three operations of `CheckChecker` (§4.3), whose
code is missing, over a move generator `smh` and an attack rule `attacked`:
`checkForCheck` asks whether the king of the player in turn is attacked,
`filterCheckMoves` is `filterBySimulation`, and `checkForCheckmate` holds when
the player in turn is in check and none of their pieces has a move left after
filtering. -/
def simulatingChecker (smh : SpecialMovesHandler)
    (attacked : (Coordinate → PiecePtr) → Color → Bool) : CheckChecker :=
  { filterCheckMoves := filterBySimulation attacked,
    checkForCheck := fun s => attacked s.board s.getCurrentPlayer.color,
    checkForCheckmate := fun s =>
      attacked s.board s.getCurrentPlayer.color &&
        allCoordinates.all fun c =>
          match s.getPiece c with
          | some (PiecePtr.pointsTo piece) =>
            piece.color != s.getCurrentPlayer.color ||
              (filterBySimulation attacked s (smh.getValidMoves s c) c).isEmpty
          | _ => true }

/-- The pointer refers to a rook whose colour is not `k`. -/
def isRookAgainst (k : Color) (ptr : PiecePtr) : Bool :=
  match ptr with
  | PiecePtr.pointsTo p => p.type == PieceType.ptRook && p.color != k
  | _ => false

/-- The pointer in the cell at `c`, reading cells off the board as empty. -/
def cellOrEmpty (b : Coordinate → PiecePtr) (c : Coordinate) : PiecePtr :=
  if c.isInBoard then b c else PiecePtr.nullptr

/-- An example attack rule, one of the ways a king is attacked: a rook of the other
colour stands next to the king of colour `k`, on its row or on its column. -/
def rookNextToKing (b : Coordinate → PiecePtr) (k : Color) : Bool :=
  allCoordinates.any fun c =>
    isKingOf k (b c) &&
      (isRookAgainst k (cellOrEmpty b ⟨c.row, c.column + 1⟩) ||
       isRookAgainst k (cellOrEmpty b ⟨c.row, c.column - 1⟩) ||
       isRookAgainst k (cellOrEmpty b ⟨c.row + 1, c.column⟩) ||
       isRookAgainst k (cellOrEmpty b ⟨c.row - 1, c.column⟩))

def blackRook : Piece := { color := Color.cBlack, type := PieceType.ptRook, moved := true }

/-- The example position with a black rook added on (6,5), diagonally in front of
the white king. -/
def guardedState : State :=
  { exampleState with
    board := fun c => if c = ⟨6, 5⟩ then PiecePtr.pointsTo blackRook else exampleBoard c }

/-! ## Reachable states -/

/-- One call of a game in progress that returns a state: a `movePiece` whose
target is a member of `Controller::getValidMoves(source)`, or, while promotion
is pending, a `promotePown` with one of the four types it creates. -/
inductive GameStep (smh : SpecialMovesHandler) (cc : CheckChecker) : State → State → Prop where
  | move (s s' : State) (source target : Coordinate) :
      target ∈ Controller.getValidMoves smh cc s source →
      Controller.movePiece cc s source target = some s' →
      GameStep smh cc s s'
  | promote (s s' : State) (T : PieceType) :
      s.inPawnPromotion = true →
      promotable T →
      Controller.promotePown cc s T = some s' →
      GameStep smh cc s s'

/-- The states reached from `start` by a sequence of such calls. -/
inductive Reachable (smh : SpecialMovesHandler) (cc : CheckChecker) (start : State) :
    State → Prop where
  | start : Reachable smh cc start start
  | step (s s' : State) :
      Reachable smh cc start s → GameStep smh cc s s' → Reachable smh cc start s'

/-- The in-check flags tell the truth: when no promotion is pending, the flag of the
player in turn is the answer of `checkForCheck` and the other player's flag is
down; and while promotion is pending the cached pointer dangles. -/
def checkFlagsAccurate (cc : CheckChecker) (s : State) : Prop :=
  (s.inPawnPromotion = false →
    s.getCurrentPlayer.inCheck = cc.checkForCheck s ∧ s.getOtherPlayer.inCheck = false) ∧
  (s.inPawnPromotion = true →
    s.pawnInPromotionCoordinates = CoordinatePtr.dangling)

/-! ## A richer example generator and attack rule -/

/-- The eight neighbours of a cell. -/
def neighbours (c : Coordinate) : List Coordinate :=
  [⟨c.row - 1, c.column - 1⟩, ⟨c.row - 1, c.column⟩, ⟨c.row - 1, c.column + 1⟩,
   ⟨c.row, c.column - 1⟩, ⟨c.row, c.column + 1⟩,
   ⟨c.row + 1, c.column - 1⟩, ⟨c.row + 1, c.column⟩, ⟨c.row + 1, c.column + 1⟩]

/-- A piece of colour `k` may land on the cell at `t`: it is a cell of the board
that is empty or holds a piece of the other colour that is not a king. -/
def mayLandOn (s : State) (k : Color) (t : Coordinate) : Bool :=
  match s.getPiece t with
  | some PiecePtr.nullptr => true
  | some (PiecePtr.pointsTo q) => q.color != k && q.type != PieceType.ptKing
  | _ => false

/-- The pointer refers to a rook of colour `k` that has not moved. -/
def isUnmovedRookOf (k : Color) (ptr : PiecePtr) : Bool :=
  match ptr with
  | PiecePtr.pointsTo p => p.type == PieceType.ptRook && p.color == k && !p.moved
  | _ => false

/-- An example move generator over an attack rule.  Every piece may step to a
neighbouring cell it may land on; a king that has not moved may also castle
kingside, two columns to the right, when the two cells it crosses are empty, an
unmoved rook of its colour stands on the third, and the player in turn is not
attacked.  It offers nothing for a cell without a piece. -/
def exampleMoves (attacked : (Coordinate → PiecePtr) → Color → Bool) : SpecialMovesHandler :=
  { getValidMoves := fun s c =>
      match s.getPiece c with
      | some (PiecePtr.pointsTo p) =>
        (neighbours c).filter (mayLandOn s p.color) ++
          (if (p.type == PieceType.ptKing && !p.moved &&
              decide (s.getPiece ⟨c.row, c.column + 1⟩ = some PiecePtr.nullptr) &&
              decide (s.getPiece ⟨c.row, c.column + 2⟩ = some PiecePtr.nullptr) &&
              isUnmovedRookOf p.color (cellOrEmpty s.board ⟨c.row, c.column + 3⟩) &&
              !attacked s.board s.getCurrentPlayer.color) = true
            then [⟨c.row, c.column + 2⟩] else [])
      | _ => [] }

/-- An example attack rule, one of the ways a king is attacked: a rook of the other
colour stands on the column of the king of colour `k` with only empty cells
between the two. -/
def rookOnFile (b : Coordinate → PiecePtr) (k : Color) : Bool :=
  allCoordinates.any fun c =>
    isKingOf k (b c) &&
      allCoordinates.any fun r =>
        isRookAgainst k (b r) && r.column == c.column &&
          allCoordinates.all fun m =>
            !(m.column == c.column &&
                (decide (c.row < m.row ∧ m.row < r.row) ||
                 decide (r.row < m.row ∧ m.row < c.row))) ||
              b m == PiecePtr.nullptr

/-- The example generator over the rook-on-file rule. -/
def fileMoves : SpecialMovesHandler := exampleMoves rookOnFile

/-- The checker modelled from the specification over that generator and rule. -/
def fileChecker : CheckChecker := simulatingChecker fileMoves rookOnFile

/-- A variant of the example generator that reads "the king is not in check" as
a condition on the castling king: as `exampleMoves`, but the castle is offered
when the king that castles is not attacked, whoever is in turn. -/
def ownKingMoves (attacked : (Coordinate → PiecePtr) → Color → Bool) : SpecialMovesHandler :=
  { getValidMoves := fun s c =>
      match s.getPiece c with
      | some (PiecePtr.pointsTo p) =>
        (neighbours c).filter (mayLandOn s p.color) ++
          (if (p.type == PieceType.ptKing && !p.moved &&
              decide (s.getPiece ⟨c.row, c.column + 1⟩ = some PiecePtr.nullptr) &&
              decide (s.getPiece ⟨c.row, c.column + 2⟩ = some PiecePtr.nullptr) &&
              isUnmovedRookOf p.color (cellOrEmpty s.board ⟨c.row, c.column + 3⟩) &&
              !attacked s.board p.color) = true
            then [⟨c.row, c.column + 2⟩] else [])
      | _ => [] }

/-- That variant over the rook-on-file rule. -/
def ownKingFileMoves : SpecialMovesHandler := ownKingMoves rookOnFile

/-- The checker modelled from the specification over that variant and rule. -/
def ownKingFileChecker : CheckChecker := simulatingChecker ownKingFileMoves rookOnFile

/-- White king on (7,4) and white rook on (7,7), neither moved, a white pawn on
(3,7) between that rook and the black king on (0,7); White to move, no promotion
pending, all flags down. -/
def discoveryStart : State :=
  { board := fun c =>
      if c = ⟨7, 4⟩ then PiecePtr.pointsTo whiteKing
      else if c = ⟨7, 7⟩ then PiecePtr.pointsTo whiteRook
      else if c = ⟨3, 7⟩ then PiecePtr.pointsTo whitePawn
      else if c = ⟨0, 7⟩ then PiecePtr.pointsTo blackKing
      else PiecePtr.nullptr,
    player1 := whitePlayer, player2 := blackPlayer, currentIsFirst := true, gameType := 0,
    inPawnPromotion := false, pawnInPromotionCoordinates := CoordinatePtr.nullptr }

/-- The state after the pawn step (3,7) → (3,6) from `discoveryStart`, with
checker `cc`: the column between the rook and the black king is open and Black
is in turn. -/
def discoveredCheck (cc : CheckChecker) : State :=
  Controller.changePlayer cc (afterMove discoveryStart whitePawn ⟨3, 7⟩ ⟨3, 6⟩)

/-- The state after the white king has then castled kingside, with checker `cc`. -/
def castledOutOfTurn (cc : CheckChecker) : State :=
  Controller.changePlayer cc
    { discoveredCheck cc with
      board := castledBoard (discoveredCheck cc).board whiteKing whiteRook
        ⟨7, 4⟩ ⟨7, 5⟩ ⟨7, 6⟩ ⟨7, 7⟩ }

end Chess

namespace Chess

/-! ## Basic facts about the board accessors -/

theorem Coordinate.isInBoard_iff (c : Coordinate) :
    c.isInBoard = true ↔ 0 ≤ c.row ∧ c.row ≤ 7 ∧ 0 ≤ c.column ∧ c.column ≤ 7 := by
  simp [Coordinate.isInBoard, and_assoc]

theorem State.getPiece_eq_some_iff (s : State) (c : Coordinate) (p : PiecePtr) :
    s.getPiece c = some p ↔ c.isInBoard = true ∧ s.board c = p := by
  unfold State.getPiece
  by_cases h : c.isInBoard = true <;> simp [h]

/-! ## `changePlayer` only touches the turn selector and the new player's flags -/

@[simp]
theorem changePlayer_board (cc : CheckChecker) (s : State) :
    (Controller.changePlayer cc s).board = s.board := by
  unfold Controller.changePlayer State.setCurrentInCheckmate State.setCurrentInCheck State.nextPlayer
  by_cases h : s.currentIsFirst = true <;> simp only [h] <;> split <;> simp

@[simp]
theorem changePlayer_currentIsFirst (cc : CheckChecker) (s : State) :
    (Controller.changePlayer cc s).currentIsFirst = !s.currentIsFirst := by
  unfold Controller.changePlayer State.setCurrentInCheckmate State.setCurrentInCheck State.nextPlayer
  by_cases h : s.currentIsFirst = true <;> simp only [h] <;> split <;> simp

@[simp]
theorem changePlayer_inPawnPromotion (cc : CheckChecker) (s : State) :
    (Controller.changePlayer cc s).inPawnPromotion = s.inPawnPromotion := by
  unfold Controller.changePlayer State.setCurrentInCheckmate State.setCurrentInCheck State.nextPlayer
  by_cases h : s.currentIsFirst = true <;> simp only [h] <;> split <;> simp

@[simp]
theorem changePlayer_pawnInPromotionCoordinates (cc : CheckChecker) (s : State) :
    (Controller.changePlayer cc s).pawnInPromotionCoordinates = s.pawnInPromotionCoordinates := by
  unfold Controller.changePlayer State.setCurrentInCheckmate State.setCurrentInCheck State.nextPlayer
  by_cases h : s.currentIsFirst = true <;> simp only [h] <;> split <;> simp

@[simp]
theorem changePlayer_getPiece (cc : CheckChecker) (s : State) (c : Coordinate) :
    (Controller.changePlayer cc s).getPiece c = s.getPiece c := by
  simp [State.getPiece]

/-- The player who was in turn keeps their record across `changePlayer`. -/
theorem changePlayer_selectPlayer (cc : CheckChecker) (s : State) :
    (Controller.changePlayer cc s).selectPlayer s.currentIsFirst =
      s.selectPlayer s.currentIsFirst := by
  unfold Controller.changePlayer
  dsimp only
  split <;> cases hcf : s.currentIsFirst <;>
  simp [State.setCurrentInCheckmate, State.setCurrentInCheck,
    State.selectPlayer, State.nextPlayer, hcf]

/-! ## The three branches of `movePiece` -/

/-- What `doCastle` computes when its four coordinates are on the board and the
rook's cell holds a piece. -/
theorem doCastle_eq (cc : CheckChecker) (s : State) (king rook : Piece)
    (source rookTarget target rookSource : Coordinate)
    (hs : source.isInBoard = true) (hrt : rookTarget.isInBoard = true)
    (ht : target.isInBoard = true) (hrs : rookSource.isInBoard = true)
    (h1 : source ≠ target) (h2 : rookTarget ≠ target) (h3 : rookSource ≠ target)
    (h4 : source ≠ rookTarget) (h5 : rookSource ≠ rookTarget)
    (hrook : s.board rookSource = PiecePtr.pointsTo rook) :
    Controller.doCastle cc s king source rookTarget target rookSource =
      some (Controller.changePlayer cc
        { s with board := castledBoard s.board king rook source rookTarget target rookSource }) := by
  simp only [Controller.doCastle, State.setMovedAt, State.getPiece, State.setPiece, hs, hrt, ht,
    hrs, if_true, Option.bind_eq_bind, Option.some_bind, hrook, PiecePtr.deref, if_pos, h2.symm,
    h3.symm, h1.symm, if_false, h5.symm, h4.symm, ne_eq, not_false_eq_true]
  simp only [if_neg h2, Option.some_bind]
  congr 3
  funext x
  unfold castledBoard
  by_cases e1 : x = target
  · subst e1; simp [h2.symm, Ne.symm h2]
  · by_cases e2 : x = rookTarget
    · subst e2; simp [e1]
    · by_cases e3 : x = source
      · subst e3; simp [e1, e2]
      · by_cases e4 : x = rookSource
        · subst e4; simp [e1, e2]
        · simp [e1, e2, e3, e4]

theorem movePiece_rightCastle_eq (cc : CheckChecker) (s : State) (source target : Coordinate)
    (king : Piece) (hk : s.getPiece source = some (PiecePtr.pointsTo king))
    (hking : king.type = PieceType.ptKing) (hcol : target.column = source.column + 2) :
    Controller.movePiece cc s source target =
      Controller.doCastle cc s king source ⟨target.row, target.column - 1⟩ target
        ⟨target.row, target.column + 1⟩ := by
  have hne : ¬ source.column + 2 = source.column - 2 := by omega
  simp [Controller.movePiece, hk, PiecePtr.deref, Controller.isLeftCastle,
    Controller.isRightCastle, Piece.getType, hking, Coordinate.getColumn, Coordinate.getRow, hcol,
    hne]

theorem movePiece_leftCastle_eq (cc : CheckChecker) (s : State) (source target : Coordinate)
    (king : Piece) (hk : s.getPiece source = some (PiecePtr.pointsTo king))
    (hking : king.type = PieceType.ptKing) (hcol : target.column = source.column - 2) :
    Controller.movePiece cc s source target =
      Controller.doCastle cc s king source ⟨target.row, target.column + 1⟩ target
        ⟨target.row, target.column - 2⟩ := by
  simp [Controller.movePiece, hk, PiecePtr.deref, Controller.isLeftCastle,
    Piece.getType, hking, Coordinate.getColumn, Coordinate.getRow, hcol]

/-! ## Off-board and empty-cell clicks -/

/-- C1: for every state and every coordinate whose row or column lies outside
`[0,7]`, `Controller::getValidMoves` returns the empty list, whatever
`SpecialMovesHandler` and `CheckChecker` would answer. -/
theorem getValidMoves_off_board (smh : SpecialMovesHandler) (cc : CheckChecker) (state : State)
    (click : Coordinate)
    (h : click.row < 0 ∨ 7 < click.row ∨ click.column < 0 ∨ 7 < click.column) :
    Controller.getValidMoves smh cc state click = [] := by
  have hb : click.isInBoard = false := by
    cases hc : click.isInBoard
    · rfl
    · rw [Coordinate.isInBoard_iff] at hc; omega
  simp [Controller.getValidMoves, hb]

/-- Witness for C1: the click (8,0) is below the board; the example move
generator would offer a move for any piece, yet the controller answers with the
empty list. -/
theorem getValidMoves_off_board_witness :
    ((8 : Int) < 0 ∨ (7 : Int) < 8 ∨ (0 : Int) < 0 ∨ (7 : Int) < 0) ∧
      Controller.getValidMoves stepRightMoves quietChecker exampleState ⟨8, 0⟩ = [] :=
  ⟨by decide, getValidMoves_off_board stepRightMoves quietChecker exampleState ⟨8, 0⟩ (by decide)⟩

/-- C2: assume `SpecialMovesHandler::getValidMoves` returns the empty list for an
empty cell and `CheckChecker::filterCheckMoves` returns only members of its
candidate list.  Then `Controller::getValidMoves` returns the empty list for
every on-board coordinate whose cell is empty; and whenever a target is a member
of `Controller::getValidMoves(source)`, the source is on the board and the
pointer `movePiece` reads there is not null: it points to a piece, unless the
cell was left with a destroyed piece. -/
theorem getValidMoves_empty_cell (smh : SpecialMovesHandler) (cc : CheckChecker)
    (hsmh : ∀ (s : State) (c : Coordinate),
      s.getPiece c = some PiecePtr.nullptr → smh.getValidMoves s c = [])
    (hcc : ∀ (s : State) (moves : List Coordinate) (c x : Coordinate),
      x ∈ cc.filterCheckMoves s moves c → x ∈ moves) :
    (∀ (s : State) (click : Coordinate), click.isInBoard = true →
        s.getPiece click = some PiecePtr.nullptr →
        Controller.getValidMoves smh cc s click = []) ∧
    (∀ (s : State) (source target : Coordinate),
        target ∈ Controller.getValidMoves smh cc s source →
        source.isInBoard = true ∧ s.getPiece source ≠ some PiecePtr.nullptr ∧
        (s.getPiece source ≠ some PiecePtr.dangling →
          ∃ p, s.getPiece source = some (PiecePtr.pointsTo p))) := by
  have hempty : ∀ (s : State) (click : Coordinate),
      s.getPiece click = some PiecePtr.nullptr →
      Controller.getValidMoves smh cc s click = [] := by
    intro s click hnull
    have hb := ((State.getPiece_eq_some_iff _ _ _).1 hnull).1
    simp only [Controller.getValidMoves, hb, Bool.not_true, Bool.false_eq_true, if_false,
      hsmh s click hnull]
    cases hres : cc.filterCheckMoves s [] click with
    | nil => rfl
    | cons y ys =>
      have hmem : y ∈ cc.filterCheckMoves s [] click := by rw [hres]; exact List.mem_cons_self _ _
      exact absurd (hcc s [] click y hmem) (List.not_mem_nil y)
  refine ⟨fun s click _ hnull => hempty s click hnull, ?_⟩
  intro s source target hmem
  have hb : source.isInBoard = true := by
    cases hc : source.isInBoard
    · simp [Controller.getValidMoves, hc] at hmem
    · rfl
  have hnn : s.getPiece source ≠ some PiecePtr.nullptr := by
    intro hnull
    rw [hempty s source hnull] at hmem
    exact absurd hmem (List.not_mem_nil target)
  refine ⟨hb, hnn, ?_⟩
  intro hnd
  have hget : s.getPiece source = some (s.board source) := by simp [State.getPiece, hb]
  rw [hget] at hnn hnd ⊢
  cases hcell : s.board source with
  | nullptr => rw [hcell] at hnn; exact absurd rfl hnn
  | pointsTo p => exact ⟨p, rfl⟩
  | dangling => rw [hcell] at hnd; exact absurd rfl hnd

/-- Witness for C2: the example move generator and the filter that keeps every
candidate satisfy both assumptions; in the example position the empty cell (3,3)
gets no moves, and the king's cell (7,4), which gets the move (7,5), holds a piece. -/
theorem getValidMoves_empty_cell_witness :
    (∀ (s : State) (c : Coordinate),
      s.getPiece c = some PiecePtr.nullptr → stepRightMoves.getValidMoves s c = []) ∧
    (∀ (s : State) (moves : List Coordinate) (c x : Coordinate),
      x ∈ quietChecker.filterCheckMoves s moves c → x ∈ moves) ∧
    Controller.getValidMoves stepRightMoves quietChecker exampleState ⟨3, 3⟩ = [] ∧
    (⟨7, 5⟩ : Coordinate) ∈
      Controller.getValidMoves stepRightMoves quietChecker exampleState ⟨7, 4⟩ ∧
    exampleState.getPiece ⟨7, 4⟩ ≠ some PiecePtr.nullptr :=
  have h1 : ∀ (s : State) (c : Coordinate),
      s.getPiece c = some PiecePtr.nullptr → stepRightMoves.getValidMoves s c = [] := by
    intro s c h
    simp [stepRightMoves, h]
  have h2 : ∀ (s : State) (moves : List Coordinate) (c x : Coordinate),
      x ∈ quietChecker.filterCheckMoves s moves c → x ∈ moves := by
    intro s moves c x h
    exact h
  ⟨h1, h2,
    (getValidMoves_empty_cell stepRightMoves quietChecker h1 h2).1 exampleState ⟨3, 3⟩
      (by decide) (by decide),
    by decide,
    ((getValidMoves_empty_cell stepRightMoves quietChecker h1 h2).2 exampleState ⟨7, 4⟩ ⟨7, 5⟩
      (by decide)).2.1⟩

/-! ## Castling -/

/-- C3: kingside castling.  For every state in which a king stands at `(r,c)` and
a piece (the rook) stands at `(r,c+3)`, `movePiece((r,c),(r,c+2))` returns a
state where `(r,c+2)` holds that king, `(r,c+1)` holds that rook, `(r,c)` and
`(r,c+3)` are empty, every other cell is unchanged, both pieces have their
moved-flag set, and the current player has been switched. -/
theorem movePiece_kingside_castle (cc : CheckChecker) (s : State) (r c : Int)
    (king rook : Piece)
    (hk : s.getPiece ⟨r, c⟩ = some (PiecePtr.pointsTo king))
    (hking : king.type = PieceType.ptKing)
    (hr : s.getPiece ⟨r, c + 3⟩ = some (PiecePtr.pointsTo rook)) :
    ∃ s', Controller.movePiece cc s ⟨r, c⟩ ⟨r, c + 2⟩ = some s' ∧
      s'.getPiece ⟨r, c + 2⟩ = some (PiecePtr.pointsTo { king with moved := true }) ∧
      s'.getPiece ⟨r, c + 1⟩ = some (PiecePtr.pointsTo { rook with moved := true }) ∧
      s'.getPiece ⟨r, c⟩ = some PiecePtr.nullptr ∧
      s'.getPiece ⟨r, c + 3⟩ = some PiecePtr.nullptr ∧
      (∀ x : Coordinate, x ≠ ⟨r, c⟩ → x ≠ ⟨r, c + 1⟩ → x ≠ ⟨r, c + 2⟩ → x ≠ ⟨r, c + 3⟩ →
        s'.getPiece x = s.getPiece x) ∧
      s'.currentIsFirst = !s.currentIsFirst := by
  obtain ⟨hk1, -⟩ := (State.getPiece_eq_some_iff _ _ _).1 hk
  obtain ⟨hr1, hr2⟩ := (State.getPiece_eq_some_iff _ _ _).1 hr
  have b0 := hk1
  have b3 := hr1
  rw [Coordinate.isInBoard_iff] at hk1 hr1
  simp only at hk1 hr1
  have b1 : Coordinate.isInBoard ⟨r, c + 1⟩ = true := by
    rw [Coordinate.isInBoard_iff]; simp only; omega
  have b2 : Coordinate.isInBoard ⟨r, c + 2⟩ = true := by
    rw [Coordinate.isInBoard_iff]; simp only; omega
  have e1 : (⟨r, c + 2 - 1⟩ : Coordinate) = ⟨r, c + 1⟩ := by congr 1; omega
  have e3 : (⟨r, c + 2 + 1⟩ : Coordinate) = ⟨r, c + 3⟩ := by congr 1; omega
  have hmove := movePiece_rightCastle_eq cc s ⟨r, c⟩ ⟨r, c + 2⟩ king hk hking rfl
  simp only [e1, e3] at hmove
  rw [doCastle_eq cc s king rook ⟨r, c⟩ ⟨r, c + 1⟩ ⟨r, c + 2⟩ ⟨r, c + 3⟩ b0 b1 b2 b3
    (by simp) (by simp) (by simp) (by simp) (by simp) hr2] at hmove
  refine ⟨_, hmove, ?_, ?_, ?_, ?_, ?_, ?_⟩
  · simp [State.getPiece, b2, castledBoard, Piece.setMoved]
  · simp [State.getPiece, b1, castledBoard, Piece.setMoved]
  · simp [State.getPiece, b0, castledBoard]
  · simp [State.getPiece, b3, castledBoard]
  · intro x h0 h1 h2 h3
    simp [State.getPiece, castledBoard, h0, h1, h2, h3]
  · simp

/-- Witness for C3: in the example position the king goes (7,4) → (7,6) and the
rook (7,7) → (7,5). -/
theorem movePiece_kingside_castle_witness :
    exampleState.getPiece ⟨7, 4⟩ = some (PiecePtr.pointsTo whiteKing) ∧
    whiteKing.type = PieceType.ptKing ∧
    exampleState.getPiece ⟨7, 4 + 3⟩ = some (PiecePtr.pointsTo whiteRook) ∧
    ∃ s', Controller.movePiece quietChecker exampleState ⟨7, 4⟩ ⟨7, 4 + 2⟩ = some s' ∧
      s'.getPiece ⟨7, 4 + 2⟩ = some (PiecePtr.pointsTo { whiteKing with moved := true }) ∧
      s'.getPiece ⟨7, 4 + 1⟩ = some (PiecePtr.pointsTo { whiteRook with moved := true }) ∧
      s'.getPiece ⟨7, 4⟩ = some PiecePtr.nullptr ∧
      s'.getPiece ⟨7, 4 + 3⟩ = some PiecePtr.nullptr ∧
      (∀ x : Coordinate, x ≠ ⟨7, 4⟩ → x ≠ ⟨7, 4 + 1⟩ → x ≠ ⟨7, 4 + 2⟩ → x ≠ ⟨7, 4 + 3⟩ →
        s'.getPiece x = exampleState.getPiece x) ∧
      s'.currentIsFirst = !exampleState.currentIsFirst :=
  ⟨by decide, by decide, by decide,
    movePiece_kingside_castle quietChecker exampleState 7 4 whiteKing whiteRook
      (by decide) (by decide) (by decide)⟩

/-- C4: queenside castling.  For every state in which a king stands at `(r,c)` and
a piece (the rook) stands at `(r,c-4)`, `movePiece((r,c),(r,c-2))` returns a
state where `(r,c-2)` holds that king, `(r,c-1)` holds that rook, `(r,c)` and
`(r,c-4)` are empty, every other cell is unchanged, both moved-flags are set, the
current player has been switched, and the promotion bookkeeping (pending flag
and cached coordinate) is exactly as it was. -/
theorem movePiece_queenside_castle (cc : CheckChecker) (s : State) (r c : Int)
    (king rook : Piece)
    (hk : s.getPiece ⟨r, c⟩ = some (PiecePtr.pointsTo king))
    (hking : king.type = PieceType.ptKing)
    (hr : s.getPiece ⟨r, c - 4⟩ = some (PiecePtr.pointsTo rook)) :
    ∃ s', Controller.movePiece cc s ⟨r, c⟩ ⟨r, c - 2⟩ = some s' ∧
      s'.getPiece ⟨r, c - 2⟩ = some (PiecePtr.pointsTo { king with moved := true }) ∧
      s'.getPiece ⟨r, c - 1⟩ = some (PiecePtr.pointsTo { rook with moved := true }) ∧
      s'.getPiece ⟨r, c⟩ = some PiecePtr.nullptr ∧
      s'.getPiece ⟨r, c - 4⟩ = some PiecePtr.nullptr ∧
      (∀ x : Coordinate, x ≠ ⟨r, c⟩ → x ≠ ⟨r, c - 1⟩ → x ≠ ⟨r, c - 2⟩ → x ≠ ⟨r, c - 4⟩ →
        s'.getPiece x = s.getPiece x) ∧
      s'.currentIsFirst = (!s.currentIsFirst) ∧
      s'.inPawnPromotion = s.inPawnPromotion ∧
      s'.pawnInPromotionCoordinates = s.pawnInPromotionCoordinates := by
  obtain ⟨hk1, -⟩ := (State.getPiece_eq_some_iff _ _ _).1 hk
  obtain ⟨hr1, hr2⟩ := (State.getPiece_eq_some_iff _ _ _).1 hr
  have b0 := hk1
  have b4 := hr1
  rw [Coordinate.isInBoard_iff] at hk1 hr1
  simp only at hk1 hr1
  have b1 : Coordinate.isInBoard ⟨r, c - 1⟩ = true := by
    rw [Coordinate.isInBoard_iff]; simp only; omega
  have b2 : Coordinate.isInBoard ⟨r, c - 2⟩ = true := by
    rw [Coordinate.isInBoard_iff]; simp only; omega
  have e1 : (⟨r, c - 2 + 1⟩ : Coordinate) = ⟨r, c - 1⟩ := by congr 1; omega
  have e4 : (⟨r, c - 2 - 2⟩ : Coordinate) = ⟨r, c - 4⟩ := by congr 1; omega
  have hmove := movePiece_leftCastle_eq cc s ⟨r, c⟩ ⟨r, c - 2⟩ king hk hking rfl
  simp only [e1, e4] at hmove
  have n1 : (⟨r, c⟩ : Coordinate) ≠ ⟨r, c - 2⟩ := by simp; omega
  have n2 : (⟨r, c - 1⟩ : Coordinate) ≠ ⟨r, c - 2⟩ := by simp
  have n3 : (⟨r, c - 4⟩ : Coordinate) ≠ ⟨r, c - 2⟩ := by simp
  have n4 : (⟨r, c⟩ : Coordinate) ≠ ⟨r, c - 1⟩ := by simp; omega
  have n5 : (⟨r, c - 4⟩ : Coordinate) ≠ ⟨r, c - 1⟩ := by simp
  have n6 : (⟨r, c⟩ : Coordinate) ≠ ⟨r, c - 4⟩ := by simp; omega
  rw [doCastle_eq cc s king rook ⟨r, c⟩ ⟨r, c - 1⟩ ⟨r, c - 2⟩ ⟨r, c - 4⟩ b0 b1 b2 b4
    n1 n2 n3 n4 n5 hr2] at hmove
  refine ⟨_, hmove, ?_, ?_, ?_, ?_, ?_, ?_, ?_, ?_⟩
  · simp [State.getPiece, b2, castledBoard, Piece.setMoved]
  · simp [State.getPiece, b1, castledBoard, Piece.setMoved, n2]
  · simp [State.getPiece, b0, castledBoard, n1, n4]
  · simp [State.getPiece, b4, castledBoard, n3, n5]
  · intro x h0 h1 h2 h4
    simp [State.getPiece, castledBoard, h0, h1, h2, h4]
  · simp
  · simp
  · simp

/-- Witness for C4: in the example position the king stands on column 4; the rook
is taken from column 0 and ends on column 3 while the king ends on column 2. -/
theorem movePiece_queenside_castle_witness :
    exampleState.getPiece ⟨7, 4⟩ = some (PiecePtr.pointsTo whiteKing) ∧
    whiteKing.type = PieceType.ptKing ∧
    exampleState.getPiece ⟨7, 4 - 4⟩ = some (PiecePtr.pointsTo whiteRook) ∧
    ∃ s', Controller.movePiece quietChecker exampleState ⟨7, 4⟩ ⟨7, 4 - 2⟩ = some s' ∧
      s'.getPiece ⟨7, 4 - 2⟩ = some (PiecePtr.pointsTo { whiteKing with moved := true }) ∧
      s'.getPiece ⟨7, 4 - 1⟩ = some (PiecePtr.pointsTo { whiteRook with moved := true }) ∧
      s'.getPiece ⟨7, 4⟩ = some PiecePtr.nullptr ∧
      s'.getPiece ⟨7, 4 - 4⟩ = some PiecePtr.nullptr ∧
      (∀ x : Coordinate, x ≠ ⟨7, 4⟩ → x ≠ ⟨7, 4 - 1⟩ → x ≠ ⟨7, 4 - 2⟩ → x ≠ ⟨7, 4 - 4⟩ →
        s'.getPiece x = exampleState.getPiece x) ∧
      s'.currentIsFirst = (!exampleState.currentIsFirst) ∧
      s'.inPawnPromotion = exampleState.inPawnPromotion ∧
      s'.pawnInPromotionCoordinates = exampleState.pawnInPromotionCoordinates :=
  ⟨by decide, by decide, by decide,
    movePiece_queenside_castle quietChecker exampleState 7 4 whiteKing whiteRook
      (by decide) (by decide) (by decide)⟩

/-! ## Ordinary moves -/

theorem not_castle_of_not_kingTwoColumns (p : Piece) (source target : Coordinate)
    (hnc : ¬ kingTwoColumns p source target) :
    Controller.isLeftCastle p.getType source target = false ∧
      Controller.isRightCastle p.getType source target = false := by
  unfold kingTwoColumns at hnc
  simp only [Controller.isLeftCastle, Controller.isRightCastle, Piece.getType,
    Coordinate.getColumn]
  by_cases hk : p.type = PieceType.ptKing
  · have h1 : ¬ target.column = source.column - 2 := fun h => hnc ⟨hk, Or.inl h⟩
    have h2 : ¬ target.column = source.column + 2 := fun h => hnc ⟨hk, Or.inr h⟩
    simp [h1, h2]
  · simp [hk]

theorem checkAndSetPawnPromotion_of_far (st : State) (p : Piece) (c : Coordinate)
    (h : reachedFarRank p c) :
    Controller.checkAndSetPawnPromotion st p c =
      { st with inPawnPromotion := true,
                pawnInPromotionCoordinates := CoordinatePtr.pointsTo c } := by
  obtain ⟨h1, h2⟩ := h
  rcases h2 with ⟨h3, h4⟩ | ⟨h3, h4⟩ <;>
  simp [Controller.checkAndSetPawnPromotion, Piece.getType, Piece.getColor, Coordinate.getRow,
    h1, h3, h4, State.setInPawnPromotion, State.setPawnInPromotionCoordinates]

theorem checkAndSetPawnPromotion_of_not_far (st : State) (p : Piece) (c : Coordinate)
    (h : ¬ reachedFarRank p c) :
    Controller.checkAndSetPawnPromotion st p c = st := by
  unfold reachedFarRank at h
  unfold Controller.checkAndSetPawnPromotion
  rw [if_neg]
  intro hcond
  apply h
  simpa [Piece.getType, Piece.getColor, Coordinate.getRow] using hcond

theorem targetDestroyed_of_far (st : State) (p : Piece) (c : Coordinate)
    (h : reachedFarRank p c) :
    Controller.targetDestroyed st p c =
      { st with pawnInPromotionCoordinates := CoordinatePtr.dangling } := by
  obtain ⟨h1, h2⟩ := h
  rcases h2 with ⟨h3, h4⟩ | ⟨h3, h4⟩ <;>
  simp [Controller.targetDestroyed, Piece.getType, Piece.getColor, Coordinate.getRow,
    h1, h3, h4, State.setPawnInPromotionCoordinates]

theorem targetDestroyed_of_not_far (st : State) (p : Piece) (c : Coordinate)
    (h : ¬ reachedFarRank p c) :
    Controller.targetDestroyed st p c = st := by
  unfold reachedFarRank at h
  unfold Controller.targetDestroyed
  rw [if_neg]
  intro hcond
  apply h
  simpa [Piece.getType, Piece.getColor, Coordinate.getRow] using hcond

/-- The state `afterMove` when the piece is a pawn arriving on its far rank:
promotion is pending and the cached pointer dangles. -/
theorem afterMove_of_far (s : State) (p : Piece) (source target : Coordinate)
    (hfar : reachedFarRank p target) :
    afterMove s p source target =
      { State.setCurrentInCheck { s with board := movedBoard s.board p source target } false with
        inPawnPromotion := true, pawnInPromotionCoordinates := CoordinatePtr.dangling } := by
  unfold afterMove
  rw [checkAndSetPawnPromotion_of_far _ _ _ hfar, targetDestroyed_of_far _ _ _ hfar]

/-- The state `afterMove` for any other piece or target. -/
theorem afterMove_of_not_far (s : State) (p : Piece) (source target : Coordinate)
    (hfar : ¬ reachedFarRank p target) :
    afterMove s p source target =
      State.setCurrentInCheck { s with board := movedBoard s.board p source target } false := by
  unfold afterMove
  rw [checkAndSetPawnPromotion_of_not_far _ _ _ hfar, targetDestroyed_of_not_far _ _ _ hfar]

/-- What the last branch of `movePiece` computes for a move between two different
cells whose target is empty or holds a piece. -/
theorem movePiece_ordinary_eq (cc : CheckChecker) (s : State) (source target : Coordinate)
    (p : Piece) (tp : PiecePtr)
    (hs : s.getPiece source = some (PiecePtr.pointsTo p))
    (hnc : ¬ kingTwoColumns p source target)
    (hne : source ≠ target)
    (ht : s.getPiece target = some tp) (htd : tp ≠ PiecePtr.dangling) :
    Controller.movePiece cc s source target =
      some (if (afterMove s p source target).inPawnPromotion = true
        then afterMove s p source target
        else Controller.changePlayer cc (afterMove s p source target)) := by
  obtain ⟨hl, hr⟩ := not_castle_of_not_kingTwoColumns p source target hnc
  obtain ⟨bs, hs2⟩ := (State.getPiece_eq_some_iff _ _ _).1 hs
  obtain ⟨bt, ht2⟩ := (State.getPiece_eq_some_iff _ _ _).1 ht
  have hdel : tp.delete = some () := by
    cases tp with
    | nullptr => rfl
    | pointsTo q => rfl
    | dangling => exact absurd rfl htd
  have hboard : (fun c => if c = target then PiecePtr.pointsTo p.setMoved
        else if c = source then PiecePtr.nullptr
        else if c = target then PiecePtr.pointsTo p else s.board c) =
      movedBoard s.board p source target := by
    funext x
    unfold movedBoard
    by_cases e1 : x = target
    · simp [e1]
    · simp [e1]
  simp only [Controller.movePiece, State.getPiece, bs, bt, if_true, hs2, ht2,
    Option.bind_eq_bind, Option.some_bind, PiecePtr.deref, hl, hr, Bool.false_eq_true, if_false,
    hdel, hne, State.setPiece, State.setMovedAt, Ne.symm hne, hboard, State.isInPownPromotion]
  by_cases hfar : reachedFarRank p target
  · rw [afterMove_of_far _ _ _ _ hfar, checkAndSetPawnPromotion_of_far _ _ _ hfar]
    simp [targetDestroyed_of_far _ _ _ hfar]
  · rw [afterMove_of_not_far _ _ _ _ hfar, checkAndSetPawnPromotion_of_not_far _ _ _ hfar]
    cases hflag : (State.setCurrentInCheck
        { s with board := movedBoard s.board p source target } false).inPawnPromotion <;>
      simp [targetDestroyed_of_not_far _ _ _ hfar]

theorem afterMove_board (s : State) (p : Piece) (source target : Coordinate) :
    (afterMove s p source target).board = movedBoard s.board p source target := by
  by_cases hfar : reachedFarRank p target
  · rw [afterMove_of_far _ _ _ _ hfar]
    unfold State.setCurrentInCheck
    cases hcf : s.currentIsFirst <;> simp
  · rw [afterMove_of_not_far _ _ _ _ hfar]
    unfold State.setCurrentInCheck
    cases hcf : s.currentIsFirst <;> simp

theorem afterMove_currentIsFirst (s : State) (p : Piece) (source target : Coordinate) :
    (afterMove s p source target).currentIsFirst = s.currentIsFirst := by
  by_cases hfar : reachedFarRank p target
  · rw [afterMove_of_far _ _ _ _ hfar]
    unfold State.setCurrentInCheck
    cases hcf : s.currentIsFirst <;> simp [hcf]
  · rw [afterMove_of_not_far _ _ _ _ hfar]
    unfold State.setCurrentInCheck
    cases hcf : s.currentIsFirst <;> simp [hcf]

theorem afterMove_mover_inCheck (s : State) (p : Piece) (source target : Coordinate) :
    ((afterMove s p source target).selectPlayer s.currentIsFirst).inCheck = false := by
  by_cases hfar : reachedFarRank p target
  · rw [afterMove_of_far _ _ _ _ hfar]
    unfold State.setCurrentInCheck
    cases hcf : s.currentIsFirst <;> simp [State.selectPlayer, Player.setInCheck]
  · rw [afterMove_of_not_far _ _ _ _ hfar]
    unfold State.setCurrentInCheck
    cases hcf : s.currentIsFirst <;> simp [State.selectPlayer, Player.setInCheck]

theorem afterMove_getOtherPlayer (s : State) (p : Piece) (source target : Coordinate) :
    (afterMove s p source target).getOtherPlayer = s.getOtherPlayer := by
  by_cases hfar : reachedFarRank p target
  · rw [afterMove_of_far _ _ _ _ hfar]
    unfold State.setCurrentInCheck
    cases hcf : s.currentIsFirst <;> simp [State.getOtherPlayer, hcf]
  · rw [afterMove_of_not_far _ _ _ _ hfar]
    unfold State.setCurrentInCheck
    cases hcf : s.currentIsFirst <;> simp [State.getOtherPlayer, hcf]

theorem afterMove_inPawnPromotion (s : State) (p : Piece) (source target : Coordinate) :
    (afterMove s p source target).inPawnPromotion = true ↔
      (s.inPawnPromotion = true ∨ reachedFarRank p target) := by
  by_cases hfar : reachedFarRank p target
  · rw [afterMove_of_far _ _ _ _ hfar]
    simp [hfar]
  · rw [afterMove_of_not_far _ _ _ _ hfar]
    unfold State.setCurrentInCheck
    cases hcf : s.currentIsFirst <;> simp [hfar]

/-- When the pawn has arrived on its far rank, the pointer cached by
`checkAndSetPawnPromotion` is the address of the destroyed parameter `target`. -/
theorem afterMove_cached (s : State) (p : Piece) (source target : Coordinate)
    (hfar : reachedFarRank p target) :
    (afterMove s p source target).pawnInPromotionCoordinates = CoordinatePtr.dangling := by
  rw [afterMove_of_far _ _ _ _ hfar]

theorem movedBoard_target (b : Coordinate → PiecePtr) (p : Piece) (source target : Coordinate) :
    movedBoard b p source target target = PiecePtr.pointsTo { p with moved := true } := by
  simp [movedBoard, Piece.setMoved]

theorem movedBoard_source (b : Coordinate → PiecePtr) (p : Piece) (source target : Coordinate)
    (hne : source ≠ target) :
    movedBoard b p source target source = PiecePtr.nullptr := by
  simp [movedBoard, hne]

theorem movedBoard_other (b : Coordinate → PiecePtr) (p : Piece) (source target x : Coordinate)
    (h1 : x ≠ source) (h2 : x ≠ target) :
    movedBoard b p source target x = b x := by
  simp [movedBoard, h1, h2]

theorem target_not_dangling (s : State) (target : Coordinate)
    (ht : s.getPiece target = some PiecePtr.nullptr ∨
      ∃ q, s.getPiece target = some (PiecePtr.pointsTo q)) :
    ∃ tp, s.getPiece target = some tp ∧ tp ≠ PiecePtr.dangling := by
  rcases ht with h | ⟨q, h⟩
  · exact ⟨_, h, by simp⟩
  · exact ⟨_, h, by simp⟩

/-- C5: ordinary move.  For every state and every two different cells `source`
and `target`, where `source` holds a piece `p`, `target` is empty or holds a
piece, and the move is not a king moving exactly two columns,
`movePiece(source,target)` returns a state where `target` holds `p` with its
moved-flag set (whatever stood on `target` is gone), `source` is empty, every
other cell is unchanged, and the in-check flag of the player who moved is false. -/
theorem movePiece_ordinary (cc : CheckChecker) (s : State) (source target : Coordinate)
    (p : Piece)
    (hs : s.getPiece source = some (PiecePtr.pointsTo p))
    (ht : s.getPiece target = some PiecePtr.nullptr ∨
      ∃ q, s.getPiece target = some (PiecePtr.pointsTo q))
    (hne : source ≠ target)
    (hnc : ¬ kingTwoColumns p source target) :
    ∃ s', Controller.movePiece cc s source target = some s' ∧
      s'.getPiece target = some (PiecePtr.pointsTo { p with moved := true }) ∧
      s'.getPiece source = some PiecePtr.nullptr ∧
      (∀ x : Coordinate, x ≠ source → x ≠ target → s'.getPiece x = s.getPiece x) ∧
      (s'.selectPlayer s.currentIsFirst).inCheck = false := by
  obtain ⟨tp, htp, htd⟩ := target_not_dangling s target ht
  obtain ⟨bs, -⟩ := (State.getPiece_eq_some_iff _ _ _).1 hs
  obtain ⟨bt, -⟩ := (State.getPiece_eq_some_iff _ _ _).1 htp
  have hmove := movePiece_ordinary_eq cc s source target p tp hs hnc hne htp htd
  have hb := afterMove_board s p source target
  have hcur := afterMove_currentIsFirst s p source target
  have hchk := afterMove_mover_inCheck s p source target
  by_cases hflag : (afterMove s p source target).inPawnPromotion = true
  · rw [if_pos hflag] at hmove
    refine ⟨_, hmove, ?_, ?_, ?_, hchk⟩
    · simp [State.getPiece, bt, hb, movedBoard_target]
    · simp [State.getPiece, bs, hb, movedBoard_source _ _ _ _ hne]
    · intro x h1 h2
      simp [State.getPiece, hb, movedBoard_other _ _ _ _ _ h1 h2]
  · rw [if_neg hflag] at hmove
    refine ⟨_, hmove, ?_, ?_, ?_, ?_⟩
    · simp [State.getPiece, bt, hb, movedBoard_target]
    · simp [State.getPiece, bs, hb, movedBoard_source _ _ _ _ hne]
    · intro x h1 h2
      simp [State.getPiece, hb, movedBoard_other _ _ _ _ _ h1 h2]
    · have h := changePlayer_selectPlayer cc (afterMove s p source target)
      rw [hcur] at h
      rw [h]
      exact hchk

/-- Witness for C5: in the example position the rook on (7,7) takes the black
pawn on (2,7). -/
theorem movePiece_ordinary_witness :
    exampleState.getPiece ⟨7, 7⟩ = some (PiecePtr.pointsTo whiteRook) ∧
    exampleState.getPiece ⟨2, 7⟩ = some (PiecePtr.pointsTo blackPawn) ∧
    (⟨7, 7⟩ : Coordinate) ≠ ⟨2, 7⟩ ∧
    ¬ kingTwoColumns whiteRook ⟨7, 7⟩ ⟨2, 7⟩ ∧
    ∃ s', Controller.movePiece quietChecker exampleState ⟨7, 7⟩ ⟨2, 7⟩ = some s' ∧
      s'.getPiece ⟨2, 7⟩ = some (PiecePtr.pointsTo { whiteRook with moved := true }) ∧
      s'.getPiece ⟨7, 7⟩ = some PiecePtr.nullptr ∧
      (∀ x : Coordinate, x ≠ ⟨7, 7⟩ → x ≠ ⟨2, 7⟩ → s'.getPiece x = exampleState.getPiece x) ∧
      (s'.selectPlayer exampleState.currentIsFirst).inCheck = false :=
  ⟨by decide, by decide, by decide, by simp [kingTwoColumns, whiteRook],
    movePiece_ordinary quietChecker exampleState ⟨7, 7⟩ ⟨2, 7⟩ whiteRook
      (by decide) (Or.inr ⟨blackPawn, by decide⟩) (by decide) (by simp [kingTwoColumns, whiteRook])⟩

/-! ## Promotion gating and the turn switch after an ordinary move -/

/-- What a non-castling `movePiece(source,target)` of the piece `p` leaves of the
promotion bookkeeping, for every state in which promotion is not pending (two
different cells, the target empty or holding a piece): the promotion-pending
flag is true if and only if `p` is a pawn and it is white with target row 0 or
black with target row 7; and when the flag is true the cell at `target` holds
that pawn, while the cached pointer is the address of the parameter `target`
that the return has destroyed. -/
theorem movePiece_promotion_flag (cc : CheckChecker) (s : State)
    (source target : Coordinate) (p : Piece)
    (hpend : s.inPawnPromotion = false)
    (hs : s.getPiece source = some (PiecePtr.pointsTo p))
    (ht : s.getPiece target = some PiecePtr.nullptr ∨
      ∃ q, s.getPiece target = some (PiecePtr.pointsTo q))
    (hne : source ≠ target)
    (hnc : ¬ kingTwoColumns p source target) :
    ∃ s', Controller.movePiece cc s source target = some s' ∧
      (s'.inPawnPromotion = true ↔
        (p.type = PieceType.ptPawn ∧
          ((p.color = Color.cWhite ∧ target.row = 0) ∨
           (p.color = Color.cBlack ∧ target.row = 7)))) ∧
      (s'.inPawnPromotion = true →
        s'.pawnInPromotionCoordinates = CoordinatePtr.dangling ∧
        s'.getPiece target = some (PiecePtr.pointsTo { p with moved := true })) := by
  obtain ⟨tp, htp, htd⟩ := target_not_dangling s target ht
  obtain ⟨bt, -⟩ := (State.getPiece_eq_some_iff _ _ _).1 htp
  have hmove := movePiece_ordinary_eq cc s source target p tp hs hnc hne htp htd
  have hb := afterMove_board s p source target
  have hiff := afterMove_inPawnPromotion s p source target
  simp only [hpend, Bool.false_eq_true, false_or] at hiff
  by_cases hflag : (afterMove s p source target).inPawnPromotion = true
  · rw [if_pos hflag] at hmove
    refine ⟨_, hmove, hiff, ?_⟩
    intro _
    refine ⟨afterMove_cached s p source target (hiff.1 hflag), ?_⟩
    simp [State.getPiece, bt, hb, movedBoard_target]
  · rw [if_neg hflag] at hmove
    refine ⟨_, hmove, ?_, ?_⟩
    · rw [changePlayer_inPawnPromotion]
      exact hiff
    · intro h
      rw [changePlayer_inPawnPromotion] at h
      exact absurd h hflag

/-- C6: promotion gating, at the input where the code departs from the claim.
In the example position no promotion is pending, the white pawn stands on (1,0)
and (0,0) is empty.  `movePiece((1,0),(0,0))` returns a state in which promotion
is pending and the cell (0,0) holds that pawn, as the claim says; but the cached
promotion coordinate is not (0,0): the cached pointer is the address of
`movePiece`'s own parameter, destroyed by the return, and reading it is
undefined. -/
theorem movePiece_promotion_cache_dangles :
    exampleState.inPawnPromotion = false ∧
    exampleState.getPiece ⟨1, 0⟩ = some (PiecePtr.pointsTo whitePawn) ∧
    exampleState.getPiece ⟨0, 0⟩ = some PiecePtr.nullptr ∧
    ∃ s', Controller.movePiece quietChecker exampleState ⟨1, 0⟩ ⟨0, 0⟩ = some s' ∧
      s'.inPawnPromotion = true ∧
      s'.getPiece ⟨0, 0⟩ = some (PiecePtr.pointsTo { whitePawn with moved := true }) ∧
      s'.pawnInPromotionCoordinates = CoordinatePtr.dangling ∧
      s'.getPawnInPromotionCoordinates.deref = none :=
  ⟨by decide, by decide, by decide,
    match movePiece_promotion_flag quietChecker exampleState ⟨1, 0⟩ ⟨0, 0⟩ whitePawn
      (by decide) (by decide) (Or.inl (by decide)) (by decide)
      (by simp [kingTwoColumns, whitePawn]) with
    | ⟨s', hmove, hiff, hcached⟩ =>
      have hflag : s'.inPawnPromotion = true :=
        hiff.2 ⟨by decide, Or.inl ⟨by decide, by decide⟩⟩
      ⟨s', hmove, hflag, (hcached hflag).2, (hcached hflag).1, by
        rw [State.getPawnInPromotionCoordinates, (hcached hflag).1]
        rfl⟩⟩

/-- C7: turn switching after an ordinary move.  A non-castling `movePiece` (between
two different cells, the source holding `p`, the target empty or holding a
piece) returns a state `s'`.  Let `mid` be the state right after the promotion
test, in which the mover is still in turn and the other player's record is
untouched.  If promotion is not pending in `mid`, `s'` is `changePlayer` applied
once to `mid`, so the other player is in turn; if promotion is pending, `s'` is
`mid`: the same player is in turn as before the move and the other player's
in-check and in-checkmate flags are unchanged. -/
theorem movePiece_turn_switch (cc : CheckChecker) (s : State) (source target : Coordinate)
    (p : Piece)
    (hs : s.getPiece source = some (PiecePtr.pointsTo p))
    (ht : s.getPiece target = some PiecePtr.nullptr ∨
      ∃ q, s.getPiece target = some (PiecePtr.pointsTo q))
    (hne : source ≠ target)
    (hnc : ¬ kingTwoColumns p source target) :
    ∃ mid s', Controller.movePiece cc s source target = some s' ∧
      mid = afterMove s p source target ∧
      mid.currentIsFirst = s.currentIsFirst ∧
      mid.getOtherPlayer = s.getOtherPlayer ∧
      s'.inPawnPromotion = mid.inPawnPromotion ∧
      (mid.inPawnPromotion = false →
        s' = Controller.changePlayer cc mid ∧ s'.currentIsFirst = !s.currentIsFirst) ∧
      (mid.inPawnPromotion = true →
        s' = mid ∧ s'.currentIsFirst = s.currentIsFirst ∧
        s'.getOtherPlayer.inCheck = s.getOtherPlayer.inCheck ∧
        s'.getOtherPlayer.inCheckmate = s.getOtherPlayer.inCheckmate) := by
  obtain ⟨tp, htp, htd⟩ := target_not_dangling s target ht
  have hmove := movePiece_ordinary_eq cc s source target p tp hs hnc hne htp htd
  have hcur := afterMove_currentIsFirst s p source target
  have hother := afterMove_getOtherPlayer s p source target
  by_cases hflag : (afterMove s p source target).inPawnPromotion = true
  · rw [if_pos hflag] at hmove
    refine ⟨afterMove s p source target, _, hmove, rfl, hcur, hother, rfl, ?_, ?_⟩
    · intro h
      rw [hflag] at h
      exact absurd h (by decide)
    · intro _
      exact ⟨rfl, hcur, by rw [hother], by rw [hother]⟩
  · rw [if_neg hflag] at hmove
    refine ⟨afterMove s p source target, _, hmove, rfl, hcur, hother, ?_, ?_, ?_⟩
    · simp
    · intro _
      refine ⟨rfl, ?_⟩
      rw [changePlayer_currentIsFirst, hcur]
    · intro h
      exact absurd h hflag

/-- Witness for C7: the rook move (7,0) → (4,0) in the example position. -/
theorem movePiece_turn_switch_witness :
    exampleState.getPiece ⟨7, 0⟩ = some (PiecePtr.pointsTo whiteRook) ∧
    exampleState.getPiece ⟨4, 0⟩ = some PiecePtr.nullptr ∧
    ∃ mid s', Controller.movePiece quietChecker exampleState ⟨7, 0⟩ ⟨4, 0⟩ = some s' ∧
      mid = afterMove exampleState whiteRook ⟨7, 0⟩ ⟨4, 0⟩ ∧
      mid.currentIsFirst = exampleState.currentIsFirst ∧
      mid.getOtherPlayer = exampleState.getOtherPlayer ∧
      s'.inPawnPromotion = mid.inPawnPromotion ∧
      (mid.inPawnPromotion = false →
        s' = Controller.changePlayer quietChecker mid ∧
        s'.currentIsFirst = !exampleState.currentIsFirst) ∧
      (mid.inPawnPromotion = true →
        s' = mid ∧ s'.currentIsFirst = exampleState.currentIsFirst ∧
        s'.getOtherPlayer.inCheck = exampleState.getOtherPlayer.inCheck ∧
        s'.getOtherPlayer.inCheckmate = exampleState.getOtherPlayer.inCheckmate) :=
  ⟨by decide, by decide,
    movePiece_turn_switch quietChecker exampleState ⟨7, 0⟩ ⟨4, 0⟩ whiteRook
      (by decide) (Or.inl (by decide)) (by decide) (by simp [kingTwoColumns, whiteRook])⟩

/-! ## Promotion -/

theorem overwrite_twice (f : Coordinate → PiecePtr) (c : Coordinate) (a b : PiecePtr) :
    (fun x => if x = c then a else if x = c then b else f x) =
      fun x => if x = c then a else f x := by
  funext x
  by_cases h : x = c <;> simp [h]

/-- What `promotePown` computes when the cached coordinate names a cell that
holds a piece. -/
theorem promotePown_eq (cc : CheckChecker) (s : State) (c : Coordinate) (pawn : Piece)
    (pieceType : PieceType)
    (hc : s.pawnInPromotionCoordinates = CoordinatePtr.pointsTo c)
    (hp : s.getPiece c = some (PiecePtr.pointsTo pawn)) :
    Controller.promotePown cc s pieceType =
      some (Controller.changePlayer cc
        { s with
          board := fun x => if x = c then promotedPtr pieceType pawn.color else s.board x
          inPawnPromotion := false }) := by
  obtain ⟨bc, hp2⟩ := (State.getPiece_eq_some_iff _ _ _).1 hp
  cases pieceType <;>
  simp [Controller.promotePown, State.getPawnInPromotionCoordinates, hc, CoordinatePtr.deref,
    State.getPiece, bc, hp2, PiecePtr.deref, State.setPiece, State.setInPawnPromotion,
    promotedPtr, Piece.getColor, overwrite_twice]

theorem promotedPtr_of_promotable (pieceType : PieceType) (k : Color)
    (hT : promotable pieceType) :
    ∃ q, promotedPtr pieceType k = PiecePtr.pointsTo q ∧ q.type = pieceType ∧ q.color = k := by
  rcases hT with h | h | h | h <;> subst h
  · exact ⟨Queen k, rfl, rfl, rfl⟩
  · exact ⟨Rook k, rfl, rfl, rfl⟩
  · exact ⟨Bishop k, rfl, rfl, rfl⟩
  · exact ⟨Knight k, rfl, rfl, rfl⟩

/-- C8: `promotePawn` with a valid type.  For every state in which promotion is
pending with cached coordinate `c` holding a pawn of colour `k`, and every type
`T` among Queen, Rook, Bishop and Knight, `promotePown(T)` returns a state where
cell `c` holds a piece of type `T` and colour `k`, every other cell is unchanged,
the promotion-pending flag is false, and the current player has been switched. -/
theorem promotePown_valid_type (cc : CheckChecker) (s : State) (c : Coordinate) (pawn : Piece)
    (k : Color) (T : PieceType)
    (_hpend : s.inPawnPromotion = true)
    (hc : s.pawnInPromotionCoordinates = CoordinatePtr.pointsTo c)
    (hp : s.getPiece c = some (PiecePtr.pointsTo pawn))
    (_hpawn : pawn.type = PieceType.ptPawn)
    (hk : pawn.color = k)
    (hT : T = PieceType.ptQueen ∨ T = PieceType.ptRook ∨ T = PieceType.ptBishop ∨
      T = PieceType.ptKnight) :
    ∃ s', Controller.promotePown cc s T = some s' ∧
      (∃ q, s'.getPiece c = some (PiecePtr.pointsTo q) ∧ q.type = T ∧ q.color = k) ∧
      (∀ x : Coordinate, x ≠ c → s'.getPiece x = s.getPiece x) ∧
      s'.inPawnPromotion = false ∧
      s'.currentIsFirst = !s.currentIsFirst := by
  obtain ⟨bc, -⟩ := (State.getPiece_eq_some_iff _ _ _).1 hp
  obtain ⟨q, hq, hqt, hqc⟩ := promotedPtr_of_promotable T pawn.color hT
  refine ⟨_, promotePown_eq cc s c pawn T hc hp, ⟨q, ?_, hqt, by rw [hqc, hk]⟩, ?_, ?_, ?_⟩
  · simp [State.getPiece, bc, hq]
  · intro x hx
    simp [State.getPiece, hx]
  · simp
  · simp

/-- Witness for C8: `promotePown(Queen)` after the white pawn reached (0,0) leaves
a white queen on (0,0), and the turn passes from White (the first player) to Black. -/
theorem promotePown_valid_type_witness :
    promotionState.inPawnPromotion = true ∧
    promotionState.pawnInPromotionCoordinates = CoordinatePtr.pointsTo ⟨0, 0⟩ ∧
    promotionState.getPiece ⟨0, 0⟩ = some (PiecePtr.pointsTo whitePawn.setMoved) ∧
    ∃ s', Controller.promotePown quietChecker promotionState PieceType.ptQueen = some s' ∧
      (∃ q, s'.getPiece ⟨0, 0⟩ = some (PiecePtr.pointsTo q) ∧ q.type = PieceType.ptQueen ∧
        q.color = Color.cWhite) ∧
      (∀ x : Coordinate, x ≠ ⟨0, 0⟩ → s'.getPiece x = promotionState.getPiece x) ∧
      s'.inPawnPromotion = false ∧
      s'.currentIsFirst = !promotionState.currentIsFirst :=
  ⟨by decide, by decide, by decide,
    promotePown_valid_type quietChecker promotionState ⟨0, 0⟩ whitePawn.setMoved Color.cWhite
      PieceType.ptQueen (by decide) (by decide) (by decide) (by decide) (by decide)
      (Or.inl rfl)⟩

/-- C9, the claim as stated fails: with promotion pending for the white pawn on
(0,0), `promotePown(King)` is not rejected.  The call goes through: the pawn is
destroyed and nothing replaces it, the pending flag is cleared, and the turn
passes to the other player. -/
theorem promotePown_king_not_rejected :
    promotionState.inPawnPromotion = true ∧
    promotionState.getPiece ⟨0, 0⟩ = some (PiecePtr.pointsTo whitePawn.setMoved) ∧
    ∃ s', Controller.promotePown quietChecker promotionState PieceType.ptKing = some s' ∧
      s'.getPiece ⟨0, 0⟩ ≠ some (PiecePtr.pointsTo whitePawn.setMoved) ∧
      s'.inPawnPromotion = false ∧
      s'.currentIsFirst ≠ promotionState.currentIsFirst :=
  ⟨by decide, by decide, _,
    promotePown_eq quietChecker promotionState ⟨0, 0⟩ whitePawn.setMoved PieceType.ptKing
      (by decide) (by decide),
    by simp [State.getPiece, Coordinate.isInBoard, promotedPtr],
    by simp,
    by simp [promotionState]⟩

/-- C9 as amended: `promotePown` does not reject King or Pawn.  For every state in
which promotion is pending and the cached coordinate `c` holds a piece (the
pawn), and every type `T` among King and Pawn, `promotePown(T)` returns a state
in which the promotion-pending flag is cleared, the current player has been
switched, and every cell other than `c` is unchanged. -/
theorem promotePown_invalid_type (cc : CheckChecker) (s : State) (c : Coordinate) (pawn : Piece)
    (T : PieceType)
    (_hpend : s.inPawnPromotion = true)
    (hc : s.pawnInPromotionCoordinates = CoordinatePtr.pointsTo c)
    (hp : s.getPiece c = some (PiecePtr.pointsTo pawn))
    (_hT : T = PieceType.ptKing ∨ T = PieceType.ptPawn) :
    ∃ s', Controller.promotePown cc s T = some s' ∧
      s'.inPawnPromotion = false ∧
      s'.currentIsFirst = (!s.currentIsFirst) ∧
      (∀ x : Coordinate, x ≠ c → s'.getPiece x = s.getPiece x) := by
  refine ⟨_, promotePown_eq cc s c pawn T hc hp, ?_, ?_, ?_⟩
  · simp
  · simp
  · intro x hx
    simp [State.getPiece, hx]

/-- Witness for the amended C9: `promotePown(Pawn)` in the pending example position. -/
theorem promotePown_invalid_type_witness :
    promotionState.inPawnPromotion = true ∧
    promotionState.pawnInPromotionCoordinates = CoordinatePtr.pointsTo ⟨0, 0⟩ ∧
    promotionState.getPiece ⟨0, 0⟩ = some (PiecePtr.pointsTo whitePawn.setMoved) ∧
    ∃ s', Controller.promotePown quietChecker promotionState PieceType.ptPawn = some s' ∧
      s'.inPawnPromotion = false ∧
      s'.currentIsFirst = (!promotionState.currentIsFirst) ∧
      (∀ x : Coordinate, x ≠ ⟨0, 0⟩ → s'.getPiece x = promotionState.getPiece x) :=
  ⟨by decide, by decide, by decide,
    promotePown_invalid_type quietChecker promotionState ⟨0, 0⟩ whitePawn.setMoved
      PieceType.ptPawn (by decide) (by decide) (by decide) (Or.inr rfl)⟩

/-- C10, the claim as stated fails: in the example position that
`promotePown(Queen)` returns for the pawn on (0,0), promotion is not pending, yet
`promotePown(Knight)` is not rejected: it replaces the queen on the cached
coordinate (0,0) by a knight and passes the turn to the other player. -/
theorem promotePown_not_pending_not_rejected :
    promotedState.inPawnPromotion = false ∧
    promotedState.getPiece ⟨0, 0⟩ = some (PiecePtr.pointsTo (Queen Color.cWhite)) ∧
    ∃ s', Controller.promotePown quietChecker promotedState PieceType.ptKnight = some s' ∧
      s'.getPiece ⟨0, 0⟩ = some (PiecePtr.pointsTo (Knight Color.cWhite)) ∧
      s'.getPiece ⟨0, 0⟩ ≠ promotedState.getPiece ⟨0, 0⟩ ∧
      s'.currentIsFirst ≠ promotedState.currentIsFirst :=
  ⟨by decide, by decide, _,
    promotePown_eq quietChecker promotedState ⟨0, 0⟩ (Queen Color.cWhite) PieceType.ptKnight
      (by decide) (by decide),
    by simp [State.getPiece, Coordinate.isInBoard, promotedPtr, Queen],
    by simp [State.getPiece, Coordinate.isInBoard, promotedPtr, Queen, Knight, promotedState],
    by simp [promotedState]⟩

/-- C10 as amended: `promotePown` does not test the pending flag.  For every state
in which the promotion-pending flag is false and the cached coordinate `c` holds
a piece of colour `k`, and every piece type `T`, `promotePown(T)` returns a state
in which the pending flag is still false, every cell other than `c` is
unchanged, and the current player has been switched; for `T` among Queen, Rook,
Bishop and Knight cell `c` then holds a piece of type `T` and colour `k`. -/
theorem promotePown_not_pending (cc : CheckChecker) (s : State) (c : Coordinate) (piece : Piece)
    (k : Color) (T : PieceType)
    (_hpend : s.inPawnPromotion = false)
    (hc : s.pawnInPromotionCoordinates = CoordinatePtr.pointsTo c)
    (hp : s.getPiece c = some (PiecePtr.pointsTo piece))
    (hk : piece.color = k) :
    ∃ s', Controller.promotePown cc s T = some s' ∧
      s'.inPawnPromotion = false ∧
      (∀ x : Coordinate, x ≠ c → s'.getPiece x = s.getPiece x) ∧
      s'.currentIsFirst = (!s.currentIsFirst) ∧
      ((T = PieceType.ptQueen ∨ T = PieceType.ptRook ∨ T = PieceType.ptBishop ∨
          T = PieceType.ptKnight) →
        ∃ q, s'.getPiece c = some (PiecePtr.pointsTo q) ∧ q.type = T ∧ q.color = k) := by
  obtain ⟨bc, -⟩ := (State.getPiece_eq_some_iff _ _ _).1 hp
  refine ⟨_, promotePown_eq cc s c piece T hc hp, ?_, ?_, ?_, ?_⟩
  · simp
  · intro x hx
    simp [State.getPiece, hx]
  · simp
  · intro hT
    obtain ⟨q, hq, hqt, hqc⟩ := promotedPtr_of_promotable T piece.color hT
    exact ⟨q, by simp [State.getPiece, bc, hq], hqt, by rw [hqc, hk]⟩

/-- Witness for the amended C10: `promotePown(Rook)` in the example position where
promotion is no longer pending and the cached coordinate (0,0) holds the white queen. -/
theorem promotePown_not_pending_witness :
    promotedState.inPawnPromotion = false ∧
    promotedState.pawnInPromotionCoordinates = CoordinatePtr.pointsTo ⟨0, 0⟩ ∧
    promotedState.getPiece ⟨0, 0⟩ = some (PiecePtr.pointsTo (Queen Color.cWhite)) ∧
    ∃ s', Controller.promotePown quietChecker promotedState PieceType.ptRook = some s' ∧
      s'.inPawnPromotion = false ∧
      (∀ x : Coordinate, x ≠ ⟨0, 0⟩ → s'.getPiece x = promotedState.getPiece x) ∧
      s'.currentIsFirst = (!promotedState.currentIsFirst) ∧
      ((PieceType.ptRook = PieceType.ptQueen ∨ PieceType.ptRook = PieceType.ptRook ∨
          PieceType.ptRook = PieceType.ptBishop ∨ PieceType.ptRook = PieceType.ptKnight) →
        ∃ q, s'.getPiece ⟨0, 0⟩ = some (PiecePtr.pointsTo q) ∧ q.type = PieceType.ptRook ∧
          q.color = Color.cWhite) :=
  ⟨by decide, by decide, by decide,
    promotePown_not_pending quietChecker promotedState ⟨0, 0⟩ (Queen Color.cWhite) Color.cWhite
      PieceType.ptRook (by decide) (by decide) (by decide) (by decide)⟩

/-! ## How the example positions arise -/

/-- What `movePiece` returns for the pawn step (1,0) → (0,0) in the example
position: promotion pending on the board of `promotionState`, with a dangling
cached pointer. -/
theorem danglingPromotionState_reached (cc : CheckChecker) :
    Controller.movePiece cc exampleState ⟨1, 0⟩ ⟨0, 0⟩ = some danglingPromotionState := by
  have hfar : reachedFarRank whitePawn ⟨0, 0⟩ := ⟨rfl, Or.inl ⟨rfl, rfl⟩⟩
  have hafter : afterMove exampleState whitePawn ⟨1, 0⟩ ⟨0, 0⟩ = danglingPromotionState := by
    rw [afterMove_of_far _ _ _ _ hfar]
    simp [State.setCurrentInCheck, exampleState, promotionState, danglingPromotionState,
      whitePlayer, Player.setInCheck]
  rw [movePiece_ordinary_eq cc exampleState ⟨1, 0⟩ ⟨0, 0⟩ whitePawn PiecePtr.nullptr
    (by decide) (by simp [kingTwoColumns, whitePawn]) (by decide) (by decide) (by decide), hafter]
  simp [danglingPromotionState, promotionState]

/-- The promoted example position is what `promotePown(Queen)` returns in the
pending example position, whose cached pointer is valid. -/
theorem promotedState_reached :
    Controller.promotePown quietChecker promotionState PieceType.ptQueen =
      some promotedState := by
  rw [promotePown_eq quietChecker promotionState ⟨0, 0⟩ whitePawn.setMoved PieceType.ptQueen
    (by decide) (by decide)]
  simp [Controller.changePlayer, quietChecker, State.nextPlayer, promotedState, promotionState,
    promotedPtr, Piece.setMoved, whitePawn]

/-! ## Moves while promotion is pending -/

theorem afterMove_cached_of_not_far (s : State) (p : Piece) (source target : Coordinate)
    (hfar : ¬ reachedFarRank p target) :
    (afterMove s p source target).pawnInPromotionCoordinates = s.pawnInPromotionCoordinates := by
  rw [afterMove_of_not_far _ _ _ _ hfar]
  unfold State.setCurrentInCheck
  cases hcf : s.currentIsFirst <;> simp

/-- C11, the claim as stated fails: in the state `movePiece` returns for the pawn
step (1,0) → (0,0) of the example position, promotion is pending for the pawn on
(0,0), and `movePiece((7,7),(2,7))` is not refused there: the rook leaves (7,7)
and stands on (2,7) afterwards. -/
theorem movePiece_while_pending_not_refused :
    Controller.movePiece quietChecker exampleState ⟨1, 0⟩ ⟨0, 0⟩ =
      some danglingPromotionState ∧
    danglingPromotionState.inPawnPromotion = true ∧
    danglingPromotionState.getPiece ⟨7, 7⟩ = some (PiecePtr.pointsTo whiteRook) ∧
    ∃ s', Controller.movePiece quietChecker danglingPromotionState ⟨7, 7⟩ ⟨2, 7⟩ = some s' ∧
      s'.getPiece ⟨7, 7⟩ = some PiecePtr.nullptr ∧
      s'.getPiece ⟨2, 7⟩ = some (PiecePtr.pointsTo { whiteRook with moved := true }) := by
  have hflag :
      (afterMove danglingPromotionState whiteRook ⟨7, 7⟩ ⟨2, 7⟩).inPawnPromotion = true :=
    (afterMove_inPawnPromotion _ _ _ _).2 (Or.inl rfl)
  have hmove := movePiece_ordinary_eq quietChecker danglingPromotionState ⟨7, 7⟩ ⟨2, 7⟩ whiteRook
    (PiecePtr.pointsTo blackPawn) (by decide) (by simp [kingTwoColumns, whiteRook]) (by decide)
    (by decide) (by simp)
  rw [if_pos hflag] at hmove
  refine ⟨danglingPromotionState_reached quietChecker, rfl, by decide, _, hmove, ?_, ?_⟩
  · simp [State.getPiece, Coordinate.isInBoard, afterMove_board, movedBoard]
  · simp [State.getPiece, Coordinate.isInBoard, afterMove_board, movedBoard, Piece.setMoved]

/-- C11 as amended: while promotion is pending `movePiece` is not refused.  For
every state whose promotion-pending flag is true, a non-castling
`movePiece(source,target)` between two different cells (the source holding `p`,
the target empty or holding a piece) is carried out on the board as usual:
`target` holds `p` with its moved-flag set, `source` is empty, every other cell
is unchanged.  The pending flag stays true and the current player is not
switched; the cached pointer is unchanged unless `p` is itself a pawn arriving
on its far rank. -/
theorem movePiece_while_pending (cc : CheckChecker) (s : State) (source target : Coordinate)
    (p : Piece)
    (hpend : s.inPawnPromotion = true)
    (hs : s.getPiece source = some (PiecePtr.pointsTo p))
    (ht : s.getPiece target = some PiecePtr.nullptr ∨
      ∃ q, s.getPiece target = some (PiecePtr.pointsTo q))
    (hne : source ≠ target)
    (hnc : ¬ kingTwoColumns p source target) :
    ∃ s', Controller.movePiece cc s source target = some s' ∧
      s'.getPiece target = some (PiecePtr.pointsTo { p with moved := true }) ∧
      s'.getPiece source = some PiecePtr.nullptr ∧
      (∀ x : Coordinate, x ≠ source → x ≠ target → s'.getPiece x = s.getPiece x) ∧
      s'.inPawnPromotion = true ∧
      s'.currentIsFirst = s.currentIsFirst ∧
      (¬ reachedFarRank p target →
        s'.pawnInPromotionCoordinates = s.pawnInPromotionCoordinates) := by
  obtain ⟨tp, htp, htd⟩ := target_not_dangling s target ht
  obtain ⟨bs, -⟩ := (State.getPiece_eq_some_iff _ _ _).1 hs
  obtain ⟨bt, -⟩ := (State.getPiece_eq_some_iff _ _ _).1 htp
  have hflag : (afterMove s p source target).inPawnPromotion = true :=
    (afterMove_inPawnPromotion _ _ _ _).2 (Or.inl hpend)
  have hmove := movePiece_ordinary_eq cc s source target p tp hs hnc hne htp htd
  rw [if_pos hflag] at hmove
  have hb := afterMove_board s p source target
  refine ⟨_, hmove, ?_, ?_, ?_, hflag, afterMove_currentIsFirst s p source target,
    afterMove_cached_of_not_far s p source target⟩
  · simp [State.getPiece, bt, hb, movedBoard_target]
  · simp [State.getPiece, bs, hb, movedBoard_source _ _ _ _ hne]
  · intro x h1 h2
    simp [State.getPiece, hb, movedBoard_other _ _ _ _ _ h1 h2]

/-- Witness for the amended C11: the rook move (7,0) → (4,0) in the pending
state that `movePiece` returns for the pawn step of the example position. -/
theorem movePiece_while_pending_witness :
    danglingPromotionState.inPawnPromotion = true ∧
    danglingPromotionState.getPiece ⟨7, 0⟩ = some (PiecePtr.pointsTo whiteRook) ∧
    danglingPromotionState.getPiece ⟨4, 0⟩ = some PiecePtr.nullptr ∧
    ∃ s', Controller.movePiece quietChecker danglingPromotionState ⟨7, 0⟩ ⟨4, 0⟩ = some s' ∧
      s'.getPiece ⟨4, 0⟩ = some (PiecePtr.pointsTo { whiteRook with moved := true }) ∧
      s'.getPiece ⟨7, 0⟩ = some PiecePtr.nullptr ∧
      (∀ x : Coordinate, x ≠ ⟨7, 0⟩ → x ≠ ⟨4, 0⟩ →
        s'.getPiece x = danglingPromotionState.getPiece x) ∧
      s'.inPawnPromotion = true ∧
      s'.currentIsFirst = danglingPromotionState.currentIsFirst ∧
      (¬ reachedFarRank whiteRook ⟨4, 0⟩ →
        s'.pawnInPromotionCoordinates = danglingPromotionState.pawnInPromotionCoordinates) :=
  ⟨by decide, by decide, by decide,
    movePiece_while_pending quietChecker danglingPromotionState ⟨7, 0⟩ ⟨4, 0⟩ whiteRook
      (by decide) (by decide) (Or.inl (by decide)) (by decide)
      (by simp [kingTwoColumns, whiteRook])⟩

/-! ## What `changePlayer` stores -/

/-- C12, the claim as stated fails: when Black, about to get the turn, carries a
raised in-check flag and the check detector reports no check, `changePlayer`
leaves that flag raised, so the flag differs from `checkForCheck` on the
resulting state. -/
theorem changePlayer_keeps_stale_flag :
    staleCheckState.getOtherPlayer.inCheck = true ∧
    (Controller.changePlayer quietChecker staleCheckState).getCurrentPlayer.inCheck = true ∧
    quietChecker.checkForCheck (Controller.changePlayer quietChecker staleCheckState) = false :=
  ⟨by decide, by decide, by decide⟩

/-- C12 as amended: `changePlayer` stores a positive result only.  For every
state `s`, the player in turn after `changePlayer` is the one `nextPlayer`
selects and the player who was in turn keeps their record.  If `checkForCheck`
holds on the state after `nextPlayer`, the new current player's in-check flag is
true and their in-checkmate flag is the value of `checkForCheckmate` on that
state with the in-check flag raised; if it does not hold, both flags of that
player keep the values they had before the call. -/
theorem changePlayer_flags (cc : CheckChecker) (s : State) :
    (Controller.changePlayer cc s).currentIsFirst = s.nextPlayer.currentIsFirst ∧
    (Controller.changePlayer cc s).getOtherPlayer = s.getCurrentPlayer ∧
    (cc.checkForCheck s.nextPlayer = true →
      (Controller.changePlayer cc s).getCurrentPlayer.inCheck = true ∧
      (Controller.changePlayer cc s).getCurrentPlayer.inCheckmate =
        cc.checkForCheckmate (s.nextPlayer.setCurrentInCheck true)) ∧
    (cc.checkForCheck s.nextPlayer = false →
      (Controller.changePlayer cc s).getCurrentPlayer.inCheck = s.getOtherPlayer.inCheck ∧
      (Controller.changePlayer cc s).getCurrentPlayer.inCheckmate =
        s.getOtherPlayer.inCheckmate) := by
  refine ⟨?_, ?_, ?_, ?_⟩
  · simp [State.nextPlayer]
  · unfold Controller.changePlayer
    dsimp only
    split <;> cases hcf : s.currentIsFirst <;>
    simp [State.setCurrentInCheckmate, State.setCurrentInCheck, State.getOtherPlayer,
      State.getCurrentPlayer, State.nextPlayer, hcf]
  · intro hck
    unfold Controller.changePlayer
    dsimp only
    rw [if_pos hck]
    cases hcf : s.currentIsFirst <;>
    simp [State.setCurrentInCheckmate, State.setCurrentInCheck, State.getCurrentPlayer,
      State.nextPlayer, hcf, Player.setInCheck, Player.setInCheckmate]
  · intro hck
    unfold Controller.changePlayer
    dsimp only
    rw [if_neg (by simp [hck])]
    cases hcf : s.currentIsFirst <;>
    simp [State.getCurrentPlayer, State.getOtherPlayer, State.nextPlayer, hcf]

/-- Witness for the amended C12: with a detector that always reports check and
checkmate, Black gets both flags raised; with the quiet detector Black keeps the
stale in-check flag. -/
theorem changePlayer_flags_witness :
    ((Controller.changePlayer alarmChecker exampleState).getCurrentPlayer.inCheck = true ∧
      (Controller.changePlayer alarmChecker exampleState).getCurrentPlayer.inCheckmate = true) ∧
    (Controller.changePlayer quietChecker staleCheckState).getCurrentPlayer.inCheck =
      staleCheckState.getOtherPlayer.inCheck :=
  ⟨(changePlayer_flags alarmChecker exampleState).2.2.1 rfl,
    ((changePlayer_flags quietChecker staleCheckState).2.2.2 rfl).1⟩

/-! ## When `movePiece` and `promotePown` return a state -/

/-- If `doCastle` returns a state for four pairwise different coordinates, all
four are on the board, the rook's cell held a piece, and the result is the
castled board handed to `changePlayer`. -/
theorem doCastle_some (cc : CheckChecker) (s s' : State) (king : Piece)
    (source rookTarget target rookSource : Coordinate)
    (h1 : source ≠ target) (h2 : rookTarget ≠ target) (h3 : rookSource ≠ target)
    (h4 : source ≠ rookTarget) (h5 : rookSource ≠ rookTarget)
    (h : Controller.doCastle cc s king source rookTarget target rookSource = some s') :
    source.isInBoard = true ∧ rookTarget.isInBoard = true ∧ target.isInBoard = true ∧
      rookSource.isInBoard = true ∧
      ∃ rook, s.board rookSource = PiecePtr.pointsTo rook ∧
        s' = Controller.changePlayer cc
          { s with board := castledBoard s.board king rook source rookTarget target rookSource } := by
  by_cases hrs : rookSource.isInBoard = true
  swap
  · simp [Controller.doCastle, State.getPiece, hrs] at h
  by_cases ht : target.isInBoard = true
  swap
  · simp [Controller.doCastle, State.getPiece, State.setPiece, hrs, ht] at h
  by_cases hs : source.isInBoard = true
  swap
  · simp [Controller.doCastle, State.getPiece, State.setPiece, hrs, ht, hs] at h
  by_cases hrt : rookTarget.isInBoard = true
  swap
  · simp [Controller.doCastle, State.getPiece, State.setPiece, hrs, ht, hs, hrt] at h
  refine ⟨hs, hrt, ht, hrs, ?_⟩
  cases hrook : s.board rookSource with
  | nullptr =>
    simp [Controller.doCastle, State.getPiece, State.setPiece, State.setMovedAt, hrs, ht, hs, hrt,
      hrook, PiecePtr.deref, h2, h3.symm, h1.symm, h5.symm, h4.symm, Ne.symm h2] at h
  | dangling =>
    simp [Controller.doCastle, State.getPiece, State.setPiece, State.setMovedAt, hrs, ht, hs, hrt,
      hrook, PiecePtr.deref, h2, h3.symm, h1.symm, h5.symm, h4.symm, Ne.symm h2] at h
  | pointsTo rook =>
    rw [doCastle_eq cc s king rook source rookTarget target rookSource hs hrt ht hrs h1 h2 h3 h4 h5
      hrook] at h
    exact ⟨rook, rfl, (Option.some.inj h).symm⟩

/-- If the last branch of `movePiece` returns a state, source and target are
different cells, the target is empty or holds a piece, and the result is the
moved state, handed to `changePlayer` unless promotion is pending. -/
theorem movePiece_ordinary_some (cc : CheckChecker) (s s' : State) (source target : Coordinate)
    (p : Piece) (hsp : s.getPiece source = some (PiecePtr.pointsTo p))
    (hnc : ¬ kingTwoColumns p source target)
    (h : Controller.movePiece cc s source target = some s') :
    source ≠ target ∧
      (∃ tp, s.getPiece target = some tp ∧ tp ≠ PiecePtr.dangling) ∧
      s' = if (afterMove s p source target).inPawnPromotion = true
        then afterMove s p source target
        else Controller.changePlayer cc (afterMove s p source target) := by
  obtain ⟨hl, hr⟩ := not_castle_of_not_kingTwoColumns p source target hnc
  cases htp : s.getPiece target with
  | none => simp [Controller.movePiece, hsp, PiecePtr.deref, hl, hr, htp] at h
  | some tp =>
    have htd : tp ≠ PiecePtr.dangling := by
      intro hd
      subst hd
      simp [Controller.movePiece, hsp, PiecePtr.deref, hl, hr, htp, PiecePtr.delete] at h
    have hne : source ≠ target := by
      intro he
      subst he
      simp [Controller.movePiece, hsp, PiecePtr.deref, hl, hr, PiecePtr.delete] at h
    rw [movePiece_ordinary_eq cc s source target p tp hsp hnc hne htp htd] at h
    exact ⟨hne, ⟨tp, rfl, htd⟩, (Option.some.inj h).symm⟩

/-- If `movePiece` returns a state, the source held a piece and one of its three
branches produced the result. -/
theorem movePiece_some (cc : CheckChecker) (s s' : State) (source target : Coordinate)
    (h : Controller.movePiece cc s source target = some s') :
    ∃ p, s.getPiece source = some (PiecePtr.pointsTo p) ∧
      ((p.type = PieceType.ptKing ∧ target.column = source.column - 2 ∧
          Controller.doCastle cc s p source ⟨target.row, target.column + 1⟩ target
            ⟨target.row, target.column - 2⟩ = some s') ∨
       (p.type = PieceType.ptKing ∧ target.column = source.column + 2 ∧
          Controller.doCastle cc s p source ⟨target.row, target.column - 1⟩ target
            ⟨target.row, target.column + 1⟩ = some s') ∨
       (¬ kingTwoColumns p source target ∧ source ≠ target ∧
          (∃ tp, s.getPiece target = some tp ∧ tp ≠ PiecePtr.dangling) ∧
          s' = if (afterMove s p source target).inPawnPromotion = true
            then afterMove s p source target
            else Controller.changePlayer cc (afterMove s p source target))) := by
  cases hsp : s.getPiece source with
  | none => simp [Controller.movePiece, hsp] at h
  | some ptr =>
    cases ptr with
    | nullptr => simp [Controller.movePiece, hsp, PiecePtr.deref] at h
    | dangling => simp [Controller.movePiece, hsp, PiecePtr.deref] at h
    | pointsTo p =>
      refine ⟨p, rfl, ?_⟩
      by_cases hk : p.type = PieceType.ptKing
      · by_cases hl : target.column = source.column - 2
        · left
          rw [movePiece_leftCastle_eq cc s source target p hsp hk hl] at h
          exact ⟨hk, hl, h⟩
        · by_cases hr : target.column = source.column + 2
          · right; left
            rw [movePiece_rightCastle_eq cc s source target p hsp hk hr] at h
            exact ⟨hk, hr, h⟩
          · right; right
            have hnc : ¬ kingTwoColumns p source target := by
              rintro ⟨-, h' | h'⟩
              · exact hl h'
              · exact hr h'
            exact ⟨hnc, movePiece_ordinary_some cc s s' source target p hsp hnc h⟩
      · right; right
        have hnc : ¬ kingTwoColumns p source target := fun h' => hk h'.1
        exact ⟨hnc, movePiece_ordinary_some cc s s' source target p hsp hnc h⟩

/-- If `promotePown` returns a state, the cached coordinate named a cell holding a
piece and the result is the promoted board handed to `changePlayer`. -/
theorem promotePown_some (cc : CheckChecker) (s s' : State) (pieceType : PieceType)
    (h : Controller.promotePown cc s pieceType = some s') :
    ∃ c pawn, s.pawnInPromotionCoordinates = CoordinatePtr.pointsTo c ∧
      s.getPiece c = some (PiecePtr.pointsTo pawn) ∧
      s' = Controller.changePlayer cc
        { s with
          board := fun x => if x = c then promotedPtr pieceType pawn.color else s.board x
          inPawnPromotion := false } := by
  cases hc : s.pawnInPromotionCoordinates with
  | nullptr =>
    simp [Controller.promotePown, State.getPawnInPromotionCoordinates, hc,
      CoordinatePtr.deref] at h
  | dangling =>
    simp [Controller.promotePown, State.getPawnInPromotionCoordinates, hc,
      CoordinatePtr.deref] at h
  | pointsTo c =>
    cases hp : s.getPiece c with
    | none =>
      simp [Controller.promotePown, State.getPawnInPromotionCoordinates, hc,
        CoordinatePtr.deref, hp] at h
    | some ptr =>
      cases ptr with
      | nullptr =>
        simp [Controller.promotePown, State.getPawnInPromotionCoordinates, hc,
          CoordinatePtr.deref, hp, PiecePtr.deref] at h
      | dangling =>
        simp [Controller.promotePown, State.getPawnInPromotionCoordinates, hc,
          CoordinatePtr.deref, hp, PiecePtr.deref] at h
      | pointsTo pawn =>
        rw [promotePown_eq cc s c pawn pieceType hc hp] at h
        have h' := (Option.some.inj h).symm
        rw [hc] at h'
        exact ⟨c, pawn, rfl, hp, h'⟩

/-! ## The flag predicate: in-checkmate implies in-check -/

theorem flagInvariant_of_players (s t : State) (h1 : t.player1 = s.player1)
    (h2 : t.player2 = s.player2) (h : flagInvariant s) : flagInvariant t := by
  unfold flagInvariant at *
  rw [h1, h2]
  exact h

theorem changePlayer_flagInvariant (cc : CheckChecker) (s : State) (h : flagInvariant s) :
    flagInvariant (Controller.changePlayer cc s) := by
  unfold flagInvariant at *
  obtain ⟨h1, h2⟩ := h
  unfold Controller.changePlayer
  dsimp only
  split <;> cases hcf : s.currentIsFirst <;>
  simp only [State.setCurrentInCheckmate, State.setCurrentInCheck, State.nextPlayer, hcf,
    Player.setInCheck, Player.setInCheckmate, Bool.not_true, Bool.not_false, if_true, if_false,
    Bool.false_eq_true, implies_true, true_and, and_true] <;>
  first | assumption | exact ⟨h1, h2⟩

theorem afterMove_flagInvariant (s : State) (p : Piece) (source target : Coordinate)
    (h : flagInvariant s) (hmate : s.getCurrentPlayer.inCheckmate = false) :
    flagInvariant (afterMove s p source target) := by
  unfold flagInvariant at *
  obtain ⟨h1, h2⟩ := h
  unfold State.getCurrentPlayer at hmate
  by_cases hfar : reachedFarRank p target
  all_goals
    first
      | rw [afterMove_of_far _ _ _ _ hfar]
      | rw [afterMove_of_not_far _ _ _ _ hfar]
  all_goals unfold State.setCurrentInCheck
  all_goals cases hcf : s.currentIsFirst
  all_goals
    simp only [Player.setInCheck, hcf, if_true, if_false, Bool.false_eq_true] at hmate ⊢
  all_goals refine ⟨?_, ?_⟩
  all_goals
  first
    | assumption
    | (intro hx; rw [hmate] at hx; exact absurd hx (by decide))

/-- The example position with White flagged as checkmated is what `changePlayer`
returns, with a detector that reports check and checkmate, when Black hands the
turn to White. -/
theorem matedState_reached :
    Controller.changePlayer alarmChecker blackToMoveState = matedState := by
  simp [Controller.changePlayer, alarmChecker, State.nextPlayer, State.setCurrentInCheck,
    State.setCurrentInCheckmate, blackToMoveState, matedState, exampleState, whitePlayer,
    Player.setInCheck, Player.setInCheckmate]

/-- C15, the claim as stated fails: in the example position with White flagged as
checkmated (both flags raised, so the predicate holds), the non-castling
`movePiece((7,0),(4,0))` returns a state in which White's in-checkmate flag is
still raised while White's in-check flag is cleared. -/
theorem movePiece_breaks_flagInvariant :
    flagInvariant matedState ∧
    matedState.getCurrentPlayer.inCheckmate = true ∧
    ∃ s', Controller.movePiece quietChecker matedState ⟨7, 0⟩ ⟨4, 0⟩ = some s' ∧
      s'.player1.inCheckmate = true ∧ s'.player1.inCheck = false ∧
      ¬ flagInvariant s' := by
  have hflag : ¬ (afterMove matedState whiteRook ⟨7, 0⟩ ⟨4, 0⟩).inPawnPromotion = true := by
    rw [afterMove_inPawnPromotion]
    simp [matedState, exampleState, reachedFarRank, whiteRook]
  have hmove := movePiece_ordinary_eq quietChecker matedState ⟨7, 0⟩ ⟨4, 0⟩ whiteRook
    PiecePtr.nullptr (by decide) (by simp [kingTwoColumns, whiteRook]) (by decide)
    (by decide) (by simp)
  rw [if_neg hflag] at hmove
  have h1 : (Controller.changePlayer quietChecker
      (afterMove matedState whiteRook ⟨7, 0⟩ ⟨4, 0⟩)).player1.inCheckmate = true := by
    simp [Controller.changePlayer, quietChecker, State.nextPlayer, afterMove,
      Controller.checkAndSetPawnPromotion, Controller.targetDestroyed, whiteRook, Piece.getType,
      State.setCurrentInCheck, matedState, exampleState, Player.setInCheck]
  have h2 : (Controller.changePlayer quietChecker
      (afterMove matedState whiteRook ⟨7, 0⟩ ⟨4, 0⟩)).player1.inCheck = false := by
    simp [Controller.changePlayer, quietChecker, State.nextPlayer, afterMove,
      Controller.checkAndSetPawnPromotion, Controller.targetDestroyed, whiteRook, Piece.getType,
      State.setCurrentInCheck, matedState, exampleState, Player.setInCheck]
  refine ⟨by simp [flagInvariant, matedState, exampleState, blackPlayer], by decide, _, hmove,
    h1, h2, ?_⟩
  intro hinv
  have := hinv.1 h1
  rw [h2] at this
  exact absurd this (by decide)

/-- C15 as amended: the predicate "for each of the two players, in-checkmate
implies in-check" is preserved, from every state that satisfies it, by
`changePlayer`, by `setWhitePlayerInTurn`, by `promotePown`, by the castling
branches of `movePiece`, and by the non-castling branch of `movePiece` when the
in-checkmate flag of the player in turn is not set. -/
theorem flagInvariant_preserved (cc : CheckChecker) (s : State) (hinv : flagInvariant s) :
    flagInvariant (Controller.changePlayer cc s) ∧
    flagInvariant (Controller.setWhitePlayerInTurn s) ∧
    (∀ (T : PieceType) (s' : State),
      Controller.promotePown cc s T = some s' → flagInvariant s') ∧
    (∀ (source target : Coordinate) (p : Piece) (s' : State),
      s.getPiece source = some (PiecePtr.pointsTo p) →
      Controller.movePiece cc s source target = some s' →
      (kingTwoColumns p source target ∨ s.getCurrentPlayer.inCheckmate = false) →
      flagInvariant s') := by
  refine ⟨changePlayer_flagInvariant cc s hinv, ?_, ?_, ?_⟩
  · unfold Controller.setWhitePlayerInTurn
    split
    · exact flagInvariant_of_players s _ rfl rfl hinv
    · exact hinv
  · intro T s' h
    obtain ⟨c, pawn, -, -, hs'⟩ := promotePown_some cc s s' T h
    rw [hs']
    exact changePlayer_flagInvariant cc _ (flagInvariant_of_players s _ rfl rfl hinv)
  · intro source target p s' hsp h hcase
    obtain ⟨p', hsp', hbranch⟩ := movePiece_some cc s s' source target h
    have hp : p' = p := by
      rw [hsp] at hsp'
      exact (PiecePtr.pointsTo.inj (Option.some.inj hsp')).symm
    subst hp
    rcases hbranch with ⟨-, hcol, hc⟩ | ⟨-, hcol, hc⟩ | ⟨hnc, -, -, hs'⟩
    · obtain ⟨-, -, -, -, rook, -, hs'⟩ := doCastle_some cc s s' p' source _ target _
        (by rw [Ne, Coordinate.mk.injEq] at *; intro hh; omega)
        (by rw [Ne, Coordinate.mk.injEq]; intro hh; omega)
        (by rw [Ne, Coordinate.mk.injEq]; intro hh; omega)
        (by rw [Ne, Coordinate.mk.injEq]; intro hh; omega)
        (by rw [Ne, Coordinate.mk.injEq]; intro hh; omega) hc
      rw [hs']
      exact changePlayer_flagInvariant cc _ (flagInvariant_of_players s _ rfl rfl hinv)
    · obtain ⟨-, -, -, -, rook, -, hs'⟩ := doCastle_some cc s s' p' source _ target _
        (by rw [Ne, Coordinate.mk.injEq]; intro hh; omega)
        (by rw [Ne, Coordinate.mk.injEq]; intro hh; omega)
        (by rw [Ne, Coordinate.mk.injEq]; intro hh; omega)
        (by rw [Ne, Coordinate.mk.injEq]; intro hh; omega)
        (by rw [Ne, Coordinate.mk.injEq]; intro hh; omega) hc
      rw [hs']
      exact changePlayer_flagInvariant cc _ (flagInvariant_of_players s _ rfl rfl hinv)
    · rcases hcase with hk | hmate
      · exact absurd hk hnc
      · have hafter := afterMove_flagInvariant s p' source target hinv hmate
        rw [hs']
        split
        · exact hafter
        · exact changePlayer_flagInvariant cc _ hafter

/-- Witness for the amended C15: the example position satisfies the predicate, and
so does the state `changePlayer` returns when the detector reports check and
checkmate for Black. -/
theorem flagInvariant_preserved_witness :
    flagInvariant exampleState ∧
    flagInvariant (Controller.changePlayer alarmChecker exampleState) :=
  have h : flagInvariant exampleState := by
    simp [flagInvariant, exampleState, whitePlayer, blackPlayer]
  ⟨h, (flagInvariant_preserved alarmChecker exampleState h).1⟩

/-! ## `movePiece` does not look at the legal move set -/

/-- C16: `movePiece` does not re-validate its arguments.  Whenever the move
generator never offers a cell occupied by a piece of the clicked piece's own
colour and the filter returns only members of its candidate list, there exist a
state and on-board coordinates `source`, `target` with `source` occupied and
`target` not a member of `Controller::getValidMoves(source)` for which
`movePiece(source,target)` still relocates the piece to `target`, empties
`source` and switches the current player. -/
theorem movePiece_not_revalidated (smh : SpecialMovesHandler) (cc : CheckChecker)
    (hown : ∀ (s : State) (source target : Coordinate) (p q : Piece),
      s.getPiece source = some (PiecePtr.pointsTo p) →
      s.getPiece target = some (PiecePtr.pointsTo q) →
      p.color = q.color → target ∉ smh.getValidMoves s source)
    (hcc : ∀ (s : State) (moves : List Coordinate) (c x : Coordinate),
      x ∈ cc.filterCheckMoves s moves c → x ∈ moves) :
    ∃ (s : State) (source target : Coordinate) (p : Piece),
      source.isInBoard = true ∧ target.isInBoard = true ∧
      s.getPiece source = some (PiecePtr.pointsTo p) ∧
      target ∉ Controller.getValidMoves smh cc s source ∧
      ∃ s', Controller.movePiece cc s source target = some s' ∧
        s'.getPiece target = some (PiecePtr.pointsTo { p with moved := true }) ∧
        s'.getPiece source = some PiecePtr.nullptr ∧
        s'.currentIsFirst = !s.currentIsFirst := by
  have hsrc : exampleState.getPiece ⟨7, 7⟩ = some (PiecePtr.pointsTo whiteRook) := by decide
  have htgt : exampleState.getPiece ⟨1, 0⟩ = some (PiecePtr.pointsTo whitePawn) := by decide
  have hnot : (⟨1, 0⟩ : Coordinate) ∉
      Controller.getValidMoves smh cc exampleState ⟨7, 7⟩ := by
    intro hmem
    have hmem' : (⟨1, 0⟩ : Coordinate) ∈
        cc.filterCheckMoves exampleState (smh.getValidMoves exampleState ⟨7, 7⟩) ⟨7, 7⟩ := by
      simpa [Controller.getValidMoves, Coordinate.isInBoard] using hmem
    exact hown exampleState ⟨7, 7⟩ ⟨1, 0⟩ whiteRook whitePawn hsrc htgt rfl
      (hcc _ _ _ _ hmem')
  have hflag : ¬ (afterMove exampleState whiteRook ⟨7, 7⟩ ⟨1, 0⟩).inPawnPromotion = true := by
    rw [afterMove_inPawnPromotion]
    simp [exampleState, reachedFarRank, whiteRook]
  have hmove := movePiece_ordinary_eq cc exampleState ⟨7, 7⟩ ⟨1, 0⟩ whiteRook
    (PiecePtr.pointsTo whitePawn) hsrc (by simp [kingTwoColumns, whiteRook]) (by decide)
    htgt (by simp)
  rw [if_neg hflag] at hmove
  refine ⟨exampleState, ⟨7, 7⟩, ⟨1, 0⟩, whiteRook, by decide, by decide, hsrc, hnot, _, hmove,
    ?_, ?_, ?_⟩
  · simp [State.getPiece, Coordinate.isInBoard, afterMove_board, movedBoard_target]
  · simp [State.getPiece, Coordinate.isInBoard, afterMove_board, movedBoard]
  · simp [afterMove_currentIsFirst]

/-- The example generator only offers empty cells, in the next column or in the
same column. -/
theorem freeStepMoves_mem (s : State) (source target : Coordinate)
    (h : target ∈ freeStepMoves.getValidMoves s source) :
    s.getPiece target = some PiecePtr.nullptr ∧
      (target.column = source.column + 1 ∨ target.column = source.column) := by
  simp only [freeStepMoves] at h
  split at h
  · rw [List.mem_filter] at h
    obtain ⟨hmem, hfree⟩ := h
    refine ⟨by simpa using hfree, ?_⟩
    simp only [List.mem_cons, List.mem_nil_iff, or_false] at hmem
    rcases hmem with rfl | rfl
    · exact Or.inl rfl
    · exact Or.inr rfl
  · exact absurd h (List.not_mem_nil _)

/-- Witness for C16: the generator that only steps onto free cells and the filter
that keeps every candidate satisfy both assumptions, so such a state and move
exist for them. -/
theorem movePiece_not_revalidated_witness :
    (∀ (s : State) (source target : Coordinate) (p q : Piece),
      s.getPiece source = some (PiecePtr.pointsTo p) →
      s.getPiece target = some (PiecePtr.pointsTo q) →
      p.color = q.color → target ∉ freeStepMoves.getValidMoves s source) ∧
    (∀ (s : State) (moves : List Coordinate) (c x : Coordinate),
      x ∈ quietChecker.filterCheckMoves s moves c → x ∈ moves) ∧
    ∃ (s : State) (source target : Coordinate) (p : Piece),
      source.isInBoard = true ∧ target.isInBoard = true ∧
      s.getPiece source = some (PiecePtr.pointsTo p) ∧
      target ∉ Controller.getValidMoves freeStepMoves quietChecker s source ∧
      ∃ s', Controller.movePiece quietChecker s source target = some s' ∧
        s'.getPiece target = some (PiecePtr.pointsTo { p with moved := true }) ∧
        s'.getPiece source = some PiecePtr.nullptr ∧
        s'.currentIsFirst = !s.currentIsFirst :=
  have h1 : ∀ (s : State) (source target : Coordinate) (p q : Piece),
      s.getPiece source = some (PiecePtr.pointsTo p) →
      s.getPiece target = some (PiecePtr.pointsTo q) →
      p.color = q.color → target ∉ freeStepMoves.getValidMoves s source := by
    intro s source target p q _ ht _ hmem
    rw [(freeStepMoves_mem s source target hmem).1] at ht
    exact absurd ht (by simp)
  have h2 : ∀ (s : State) (moves : List Coordinate) (c x : Coordinate),
      x ∈ quietChecker.filterCheckMoves s moves c → x ∈ moves := by
    intro s moves c x h
    exact h
  ⟨h1, h2, movePiece_not_revalidated freeStepMoves quietChecker h1 h2⟩

/-! ## `setWhitePlayerInTurn` -/

/-- C17: for every state whose two players have different colours (so one of them
is White; `nextPlayer` toggles between the two), after `setWhitePlayerInTurn`
the current player's colour is White, the board, the promotion bookkeeping and
both players' records (with their in-check and in-checkmate flags) are
unchanged, and calling it a second time changes nothing. -/
theorem setWhitePlayerInTurn_spec (s : State) (hcol : s.player1.color ≠ s.player2.color) :
    (Controller.setWhitePlayerInTurn s).getCurrentPlayer.color = Color.cWhite ∧
    (∀ c : Coordinate, (Controller.setWhitePlayerInTurn s).getPiece c = s.getPiece c) ∧
    (Controller.setWhitePlayerInTurn s).player1 = s.player1 ∧
    (Controller.setWhitePlayerInTurn s).player2 = s.player2 ∧
    (Controller.setWhitePlayerInTurn s).inPawnPromotion = s.inPawnPromotion ∧
    Controller.setWhitePlayerInTurn (Controller.setWhitePlayerInTurn s) =
      Controller.setWhitePlayerInTurn s := by
  have hwhite : (Controller.setWhitePlayerInTurn s).getCurrentPlayer.color = Color.cWhite := by
    unfold Controller.setWhitePlayerInTurn State.getCurrentPlayer Player.getColor State.nextPlayer
    cases hcf : s.currentIsFirst <;> cases h1 : s.player1.color <;> cases h2 : s.player2.color <;>
    simp_all
  have hidem : Controller.setWhitePlayerInTurn (Controller.setWhitePlayerInTurn s) =
      Controller.setWhitePlayerInTurn s := by
    have hstep : ∀ t : State, t.getCurrentPlayer.color = Color.cWhite →
        Controller.setWhitePlayerInTurn t = t := by
      intro t ht
      simp [Controller.setWhitePlayerInTurn, Player.getColor, ht]
    exact hstep _ hwhite
  refine ⟨hwhite, ?_, ?_, ?_, ?_, hidem⟩
  · intro c
    unfold Controller.setWhitePlayerInTurn
    split <;> simp [State.getPiece, State.nextPlayer]
  · unfold Controller.setWhitePlayerInTurn
    split <;> simp [State.nextPlayer]
  · unfold Controller.setWhitePlayerInTurn
    split <;> simp [State.nextPlayer]
  · unfold Controller.setWhitePlayerInTurn
    split <;> simp [State.nextPlayer]

/-- Witness for C17: in the example position with Black in turn the call hands the
turn to White. -/
theorem setWhitePlayerInTurn_spec_witness :
    blackToMoveState.player1.color ≠ blackToMoveState.player2.color ∧
    blackToMoveState.getCurrentPlayer.color = Color.cBlack ∧
    (Controller.setWhitePlayerInTurn blackToMoveState).getCurrentPlayer.color = Color.cWhite ∧
    Controller.setWhitePlayerInTurn (Controller.setWhitePlayerInTurn blackToMoveState) =
      Controller.setWhitePlayerInTurn blackToMoveState :=
  ⟨by decide, by decide,
    (setWhitePlayerInTurn_spec blackToMoveState (by decide)).1,
    (setWhitePlayerInTurn_spec blackToMoveState (by decide)).2.2.2.2.2⟩

/-! ## Counting kings across board updates -/

theorem mem_allCoordinates (c : Coordinate) : c ∈ allCoordinates ↔ c.isInBoard = true := by
  rw [Coordinate.isInBoard_iff]
  obtain ⟨r, k⟩ := c
  simp only [allCoordinates, boardIndices, List.mem_flatMap, List.mem_map, List.mem_cons,
    List.mem_nil_iff, or_false, Coordinate.mk.injEq]
  constructor
  · rintro ⟨a, ha, b, hb, rfl, rfl⟩
    omega
  · rintro ⟨h1, h2, h3, h4⟩
    exact ⟨r, by omega, k, by omega, rfl, rfl⟩

theorem nodup_allCoordinates : allCoordinates.Nodup := by
  decide

theorem countP_update {α : Type} (l : List α) (hnd : l.Nodup) (c : α) (hc : c ∈ l)
    (P Q : α → Bool) (hPQ : ∀ x, x ≠ c → Q x = P x) :
    l.countP Q + (if P c = true then 1 else 0) = l.countP P + (if Q c = true then 1 else 0) := by
  induction l with
  | nil => exact absurd hc (List.not_mem_nil c)
  | cons a l ih =>
    rw [List.nodup_cons] at hnd
    obtain ⟨hal, hl⟩ := hnd
    rw [List.countP_cons, List.countP_cons]
    by_cases hac : a = c
    · subst hac
      have hrest : l.countP Q = l.countP P := by
        apply List.countP_congr
        intro x hx
        have hxa : x ≠ a := fun h => hal (h ▸ hx)
        rw [hPQ x hxa]
      rw [hrest]
      omega
    · have hcl : c ∈ l := by
        rcases List.mem_cons.1 hc with h | h
        · exact absurd h.symm hac
        · exact h
      have := ih hl hcl
      rw [hPQ a hac]
      omega

/-- Overwriting one board cell changes the king count by what leaves and what arrives. -/
theorem kingCount_overwrite (b : Coordinate → PiecePtr) (c : Coordinate) (v : PiecePtr)
    (k : Color) (hc : c.isInBoard = true) :
    kingCount (fun x => if x = c then v else b x) k + (if isKingOf k (b c) = true then 1 else 0) =
      kingCount b k + (if isKingOf k v = true then 1 else 0) := by
  have h := countP_update allCoordinates nodup_allCoordinates c ((mem_allCoordinates c).2 hc)
    (fun x => isKingOf k (b x)) (fun x => isKingOf k ((fun x => if x = c then v else b x) x))
    (by intro x hx; simp [hx])
  simpa [kingCount] using h

theorem isKingOf_setMoved (k : Color) (p : Piece) :
    isKingOf k (PiecePtr.pointsTo p.setMoved) = isKingOf k (PiecePtr.pointsTo p) := by
  simp [isKingOf, Piece.setMoved]

theorem isKingOf_promotedPtr (k : Color) (T : PieceType) (c : Color) :
    isKingOf k (promotedPtr T c) = false := by
  cases T <;> simp [isKingOf, promotedPtr, Queen, Knight, Rook, Bishop]

/-- An ordinary move onto a cell that holds no king of colour `k` keeps the number
of kings of colour `k`. -/
theorem kingCount_movedBoard (b : Coordinate → PiecePtr) (p : Piece)
    (source target : Coordinate) (k : Color)
    (hs : source.isInBoard = true) (ht : target.isInBoard = true) (hne : source ≠ target)
    (hsrc : b source = PiecePtr.pointsTo p) (htgt : isKingOf k (b target) = false) :
    kingCount (movedBoard b p source target) k = kingCount b k := by
  have h1 := kingCount_overwrite b source PiecePtr.nullptr k hs
  have h2 := kingCount_overwrite (fun x => if x = source then PiecePtr.nullptr else b x) target
    (PiecePtr.pointsTo p.setMoved) k ht
  have e : (fun x => if x = target then PiecePtr.pointsTo p.setMoved
      else (fun x => if x = source then PiecePtr.nullptr else b x) x) =
      movedBoard b p source target := rfl
  rw [e] at h2
  simp only [if_neg (Ne.symm hne), htgt, isKingOf_setMoved] at h2
  rw [hsrc] at h1
  have e0 : isKingOf k PiecePtr.nullptr = false := rfl
  rw [e0] at h1
  simp only [Bool.false_eq_true, if_false] at h1 h2
  omega

/-- A castle over cells that hold no king of colour `k` keeps the number of kings
of colour `k`. -/
theorem kingCount_castledBoard (b : Coordinate → PiecePtr) (king rook : Piece)
    (source rookTarget target rookSource : Coordinate) (k : Color)
    (hs : source.isInBoard = true) (hrt : rookTarget.isInBoard = true)
    (ht : target.isInBoard = true) (hrs : rookSource.isInBoard = true)
    (h1 : source ≠ target) (h2 : rookTarget ≠ target) (h3 : rookSource ≠ target)
    (h4 : source ≠ rookTarget) (h5 : rookSource ≠ rookTarget) (h6 : source ≠ rookSource)
    (hsrc : b source = PiecePtr.pointsTo king) (hrook : b rookSource = PiecePtr.pointsTo rook)
    (htgt : isKingOf k (b target) = false) (hrtgt : isKingOf k (b rookTarget) = false) :
    kingCount (castledBoard b king rook source rookTarget target rookSource) k =
      kingCount b k := by
  have c1 := kingCount_overwrite b rookSource PiecePtr.nullptr k hrs
  have c2 := kingCount_overwrite (fun x => if x = rookSource then PiecePtr.nullptr else b x)
    source PiecePtr.nullptr k hs
  have c3 := kingCount_overwrite
    (fun x => if x = source then PiecePtr.nullptr
      else (fun x => if x = rookSource then PiecePtr.nullptr else b x) x)
    rookTarget (PiecePtr.pointsTo rook.setMoved) k hrt
  have c4 := kingCount_overwrite
    (fun x => if x = rookTarget then PiecePtr.pointsTo rook.setMoved
      else (fun x => if x = source then PiecePtr.nullptr
        else (fun x => if x = rookSource then PiecePtr.nullptr else b x) x) x)
    target (PiecePtr.pointsTo king.setMoved) k ht
  have e : (fun x => if x = target then PiecePtr.pointsTo king.setMoved
      else (fun x => if x = rookTarget then PiecePtr.pointsTo rook.setMoved
        else (fun x => if x = source then PiecePtr.nullptr
          else (fun x => if x = rookSource then PiecePtr.nullptr else b x) x) x) x) =
      castledBoard b king rook source rookTarget target rookSource := rfl
  rw [e] at c4
  have e0 : isKingOf k PiecePtr.nullptr = false := rfl
  simp only [if_neg (Ne.symm h2), if_neg (Ne.symm h1), if_neg (Ne.symm h3), htgt,
    isKingOf_setMoved] at c4
  simp only [if_neg h4.symm, if_neg (Ne.symm h5), hrtgt, isKingOf_setMoved] at c3
  simp only [if_neg h6, hsrc, e0] at c2
  simp only [hrook, e0] at c1
  simp only [Bool.false_eq_true, if_false] at c1 c2 c3 c4
  omega

theorem Coordinate.ne_of_column_ne {a b : Coordinate} (h : a.column ≠ b.column) : a ≠ b :=
  fun e => h (e ▸ rfl)

theorem isKingOf_of_no_king (s : State) (c : Coordinate) (k : Color)
    (hb : c.isInBoard = true)
    (h : ∀ q : Piece, s.getPiece c = some (PiecePtr.pointsTo q) → q.type ≠ PieceType.ptKing) :
    isKingOf k (s.board c) = false := by
  cases hcell : s.board c with
  | nullptr => rfl
  | dangling => rfl
  | pointsTo q =>
    have hq := h q (by simp [State.getPiece, hb, hcell])
    simp [isKingOf, hq]

/-- The king counts across a `movePiece` that lands on no king and, when it is a
castle, passes over no king. -/
theorem movePiece_kingCount (cc : CheckChecker) (s s' : State) (source target : Coordinate)
    (k : Color)
    (htarget : ∀ q : Piece, s.getPiece target = some (PiecePtr.pointsTo q) →
      q.type ≠ PieceType.ptKing)
    (hright : target.column = source.column + 2 → ∀ q : Piece,
      s.getPiece ⟨target.row, target.column - 1⟩ = some (PiecePtr.pointsTo q) →
      q.type ≠ PieceType.ptKing)
    (hleft : target.column = source.column - 2 → ∀ q : Piece,
      s.getPiece ⟨target.row, target.column + 1⟩ = some (PiecePtr.pointsTo q) →
      q.type ≠ PieceType.ptKing)
    (hmove : Controller.movePiece cc s source target = some s') :
    kingCount s'.board k = kingCount s.board k := by
  obtain ⟨p, hsp, hbranch⟩ := movePiece_some cc s s' source target hmove
  obtain ⟨bs, hbsrc⟩ := (State.getPiece_eq_some_iff _ _ _).1 hsp
  rcases hbranch with ⟨-, hcol, hc⟩ | ⟨-, hcol, hc⟩ | ⟨-, hne, ⟨tp, htp, -⟩, hs'⟩
  · have n1 : source ≠ target := Coordinate.ne_of_column_ne (by omega)
    have n2 : (⟨target.row, target.column + 1⟩ : Coordinate) ≠ target :=
      Coordinate.ne_of_column_ne (by dsimp only; omega)
    have n3 : (⟨target.row, target.column - 2⟩ : Coordinate) ≠ target :=
      Coordinate.ne_of_column_ne (by dsimp only; omega)
    have n4 : source ≠ (⟨target.row, target.column + 1⟩ : Coordinate) :=
      Coordinate.ne_of_column_ne (by dsimp only; omega)
    have n5 : (⟨target.row, target.column - 2⟩ : Coordinate) ≠
        (⟨target.row, target.column + 1⟩ : Coordinate) :=
      Coordinate.ne_of_column_ne (by dsimp only; omega)
    have n6 : source ≠ (⟨target.row, target.column - 2⟩ : Coordinate) :=
      Coordinate.ne_of_column_ne (by dsimp only; omega)
    obtain ⟨-, hrt, ht, hrs, rook, hrook, hs'⟩ :=
      doCastle_some cc s s' p source _ target _ n1 n2 n3 n4 n5 hc
    rw [hs', changePlayer_board]
    exact kingCount_castledBoard s.board p rook source _ target _ k bs hrt ht hrs n1 n2 n3 n4 n5
      n6 hbsrc hrook (isKingOf_of_no_king s target k ht htarget)
      (isKingOf_of_no_king s _ k hrt (hleft hcol))
  · have n1 : source ≠ target := Coordinate.ne_of_column_ne (by omega)
    have n2 : (⟨target.row, target.column - 1⟩ : Coordinate) ≠ target :=
      Coordinate.ne_of_column_ne (by dsimp only; omega)
    have n3 : (⟨target.row, target.column + 1⟩ : Coordinate) ≠ target :=
      Coordinate.ne_of_column_ne (by dsimp only; omega)
    have n4 : source ≠ (⟨target.row, target.column - 1⟩ : Coordinate) :=
      Coordinate.ne_of_column_ne (by dsimp only; omega)
    have n5 : (⟨target.row, target.column + 1⟩ : Coordinate) ≠
        (⟨target.row, target.column - 1⟩ : Coordinate) :=
      Coordinate.ne_of_column_ne (by dsimp only; omega)
    have n6 : source ≠ (⟨target.row, target.column + 1⟩ : Coordinate) :=
      Coordinate.ne_of_column_ne (by dsimp only; omega)
    obtain ⟨-, hrt, ht, hrs, rook, hrook, hs'⟩ :=
      doCastle_some cc s s' p source _ target _ n1 n2 n3 n4 n5 hc
    rw [hs', changePlayer_board]
    exact kingCount_castledBoard s.board p rook source _ target _ k bs hrt ht hrs n1 n2 n3 n4 n5
      n6 hbsrc hrook (isKingOf_of_no_king s target k ht htarget)
      (isKingOf_of_no_king s _ k hrt (hright hcol))
  · obtain ⟨bt, -⟩ := (State.getPiece_eq_some_iff _ _ _).1 htp
    have hboard : s'.board = movedBoard s.board p source target := by
      rw [hs']
      split
      · exact afterMove_board s p source target
      · rw [changePlayer_board]
        exact afterMove_board s p source target
    rw [hboard]
    exact kingCount_movedBoard s.board p source target k bs bt hne hbsrc
      (isKingOf_of_no_king s target k bt htarget)

/-! ## King preservation and the promotion that follows a move -/

/-- `promotePown` is undefined when the cached pointer cannot be dereferenced. -/
theorem promotePown_undefined (cc : CheckChecker) (s : State) (pieceType : PieceType)
    (h : s.pawnInPromotionCoordinates.deref = none) :
    Controller.promotePown cc s pieceType = none := by
  simp [Controller.promotePown, State.getPawnInPromotionCoordinates, h]

/-- C13: king preservation, at the input where the code departs from the claim.
The example position holds one king of each colour and, with the example
generator and the checker modelled from the specification, the pawn step
(1,0) → (0,0) is a member of `Controller::getValidMoves((1,0))`.
`movePiece((1,0),(0,0))` returns a state that still holds one king of each
colour and in which promotion is pending; but the pointer it has cached is the
address of its own destroyed parameter, so the subsequent `promotePown`, which
starts by dereferencing that pointer, is undefined for every requested type and
returns no board at all. -/
theorem promotePown_after_movePiece_undefined :
    oneKingEach exampleState ∧
    (⟨0, 0⟩ : Coordinate) ∈ Controller.getValidMoves fileMoves fileChecker exampleState ⟨1, 0⟩ ∧
    ∃ s', Controller.movePiece fileChecker exampleState ⟨1, 0⟩ ⟨0, 0⟩ = some s' ∧
      oneKingEach s' ∧
      s'.inPawnPromotion = true ∧
      s'.pawnInPromotionCoordinates = CoordinatePtr.dangling ∧
      ∀ T : PieceType, Controller.promotePown fileChecker s' T = none :=
  ⟨⟨by decide, by decide⟩, by decide, danglingPromotionState,
    danglingPromotionState_reached fileChecker, ⟨by decide, by decide⟩, rfl, rfl,
    fun T => promotePown_undefined fileChecker danglingPromotionState T rfl⟩

/-! ## Legal moves never leave the mover's king attacked -/

/-- Whenever the spec-level execution of a move is defined, `movePiece` returns a
state and its board is the executed board. -/
theorem movePiece_of_executedBoard (cc : CheckChecker) (s : State) (source target : Coordinate)
    (b : Coordinate → PiecePtr) (h : executedBoard s source target = some b) :
    ∃ s', Controller.movePiece cc s source target = some s' ∧ s'.board = b := by
  unfold executedBoard at h
  split at h
  · rename_i piece hsp
    obtain ⟨bs, -⟩ := (State.getPiece_eq_some_iff _ _ _).1 hsp
    split at h
    · rename_i hleft
      obtain ⟨hk, hcol⟩ := hleft
      split at h
      · rename_i rook hrook
        obtain ⟨brs, hrook2⟩ := (State.getPiece_eq_some_iff _ _ _).1 hrook
        split at h
        · rename_i hon
          obtain ⟨bt, brt⟩ := hon
          have hmove := movePiece_leftCastle_eq cc s source target piece hsp hk hcol
          rw [doCastle_eq cc s piece rook source _ target _ bs brt bt brs
            (Coordinate.ne_of_column_ne (by omega))
            (Coordinate.ne_of_column_ne (by dsimp only; omega))
            (Coordinate.ne_of_column_ne (by dsimp only; omega))
            (Coordinate.ne_of_column_ne (by dsimp only; omega))
            (Coordinate.ne_of_column_ne (by dsimp only; omega)) hrook2] at hmove
          refine ⟨_, hmove, ?_⟩
          rw [changePlayer_board]
          exact Option.some.inj h
        · exact absurd h (by simp)
      · exact absurd h (by simp)
    · rename_i hnotleft
      split at h
      · rename_i hright
        obtain ⟨hk, hcol⟩ := hright
        split at h
        · rename_i rook hrook
          obtain ⟨brs, hrook2⟩ := (State.getPiece_eq_some_iff _ _ _).1 hrook
          split at h
          · rename_i hon
            obtain ⟨bt, brt⟩ := hon
            have hmove := movePiece_rightCastle_eq cc s source target piece hsp hk hcol
            rw [doCastle_eq cc s piece rook source _ target _ bs brt bt brs
              (Coordinate.ne_of_column_ne (by omega))
              (Coordinate.ne_of_column_ne (by dsimp only; omega))
              (Coordinate.ne_of_column_ne (by dsimp only; omega))
              (Coordinate.ne_of_column_ne (by dsimp only; omega))
              (Coordinate.ne_of_column_ne (by dsimp only; omega)) hrook2] at hmove
            refine ⟨_, hmove, ?_⟩
            rw [changePlayer_board]
            exact Option.some.inj h
          · exact absurd h (by simp)
        · exact absurd h (by simp)
      · rename_i hnotright
        have hnc : ¬ kingTwoColumns piece source target := by
          rintro ⟨hk, hl | hr⟩
          · exact hnotleft ⟨hk, hl⟩
          · exact hnotright ⟨hk, hr⟩
        have hord : ∀ tp : PiecePtr, s.getPiece target = some tp → tp ≠ PiecePtr.dangling →
            source ≠ target → movedBoard s.board piece source target = b →
            ∃ s', Controller.movePiece cc s source target = some s' ∧ s'.board = b := by
          intro tp htp htd hne hb
          have hmove := movePiece_ordinary_eq cc s source target piece tp hsp hnc hne htp htd
          refine ⟨_, hmove, ?_⟩
          split
          · rw [afterMove_board]; exact hb
          · rw [changePlayer_board, afterMove_board]; exact hb
        split at h
        · rename_i htp
          split at h
          · exact absurd h (by simp)
          · rename_i hne
            exact hord _ htp (by simp) hne (Option.some.inj h)
        · rename_i q htp
          split at h
          · exact absurd h (by simp)
          · rename_i hne
            exact hord _ htp (by simp) hne (Option.some.inj h)
        · exact absurd h (by simp)
  · exact absurd h (by simp)

/-- C14: legal moves never self-check.  Let `attacked b k` say whether, on board
`b`, the king of colour `k` is attacked by an opposing piece, and assume of
`CheckChecker::filterCheckMoves` what the specification states: every move it
returns can be executed and, on the board after executing it (with the rook
relocated when the move is a castle), the king of the player in turn is not
attacked.  Then for every state and every `target` that is a member of
`Controller::getValidMoves(source)`, `movePiece(source,target)` returns a state,
and on its board the king of the player who moved is not attacked. -/
theorem legal_moves_never_self_check (smh : SpecialMovesHandler) (cc : CheckChecker)
    (attacked : (Coordinate → PiecePtr) → Color → Bool)
    (hfilter : ∀ (s : State) (moves : List Coordinate) (click t : Coordinate),
      t ∈ cc.filterCheckMoves s moves click →
      ∃ b, executedBoard s click t = some b ∧ attacked b s.getCurrentPlayer.color = false)
    (s : State) (source target : Coordinate)
    (hmem : target ∈ Controller.getValidMoves smh cc s source) :
    ∃ s', Controller.movePiece cc s source target = some s' ∧
      attacked s'.board s.getCurrentPlayer.color = false := by
  have hmem' : target ∈ cc.filterCheckMoves s (smh.getValidMoves s source) source := by
    unfold Controller.getValidMoves at hmem
    split at hmem
    · exact absurd hmem (List.not_mem_nil _)
    · exact hmem
  obtain ⟨b, hb, hsafe⟩ := hfilter s _ source target hmem'
  obtain ⟨s', hmove, hboard⟩ := movePiece_of_executedBoard cc s source target b hb
  exact ⟨s', hmove, by rw [hboard]; exact hsafe⟩

/-- The filter modelled from the specification only returns moves that can be
executed and leave the king of the player in turn unattacked. -/
theorem filterBySimulation_mem (attacked : (Coordinate → PiecePtr) → Color → Bool)
    (s : State) (moves : List Coordinate) (click t : Coordinate)
    (h : t ∈ filterBySimulation attacked s moves click) :
    ∃ b, executedBoard s click t = some b ∧ attacked b s.getCurrentPlayer.color = false := by
  unfold filterBySimulation at h
  rw [List.mem_filter] at h
  obtain ⟨-, hkeep⟩ := h
  cases hb : executedBoard s click t with
  | none => simp [hb] at hkeep
  | some b =>
    refine ⟨b, rfl, ?_⟩
    simpa [hb] using hkeep

/-- Witness for C14: the checker modelled from the specification, over the example
generator and the example attack rule, satisfies the assumption.  In the example
position the rook step (7,0) → (7,1) is legal and leaves the white king
unattacked; in the position guarded by the black rook on (6,5) the generator
offers the white king the steps to (7,5) and (6,4), both next to that rook, and
the controller offers neither. -/
theorem legal_moves_never_self_check_witness :
    (∀ (s : State) (moves : List Coordinate) (click t : Coordinate),
      t ∈ (simulatingChecker freeStepMoves rookNextToKing).filterCheckMoves s moves click →
      ∃ b, executedBoard s click t = some b ∧
        rookNextToKing b s.getCurrentPlayer.color = false) ∧
    (⟨7, 1⟩ : Coordinate) ∈ Controller.getValidMoves freeStepMoves
      (simulatingChecker freeStepMoves rookNextToKing) exampleState ⟨7, 0⟩ ∧
    (∃ s', Controller.movePiece (simulatingChecker freeStepMoves rookNextToKing) exampleState
        ⟨7, 0⟩ ⟨7, 1⟩ = some s' ∧
      rookNextToKing s'.board exampleState.getCurrentPlayer.color = false) ∧
    freeStepMoves.getValidMoves guardedState ⟨7, 4⟩ = [⟨7, 5⟩, ⟨6, 4⟩] ∧
    Controller.getValidMoves freeStepMoves
      (simulatingChecker freeStepMoves rookNextToKing) guardedState ⟨7, 4⟩ = [] :=
  have hfilter : ∀ (s : State) (moves : List Coordinate) (click t : Coordinate),
      t ∈ (simulatingChecker freeStepMoves rookNextToKing).filterCheckMoves s moves click →
      ∃ b, executedBoard s click t = some b ∧
        rookNextToKing b s.getCurrentPlayer.color = false :=
    fun s moves click t h => filterBySimulation_mem rookNextToKing s moves click t h
  have hmem : (⟨7, 1⟩ : Coordinate) ∈ Controller.getValidMoves freeStepMoves
      (simulatingChecker freeStepMoves rookNextToKing) exampleState ⟨7, 0⟩ := by decide
  ⟨hfilter, hmem,
    legal_moves_never_self_check freeStepMoves (simulatingChecker freeStepMoves rookNextToKing)
      rookNextToKing hfilter exampleState ⟨7, 0⟩ ⟨7, 1⟩ hmem,
    by decide, by decide⟩

/-! ## The in-check flags on reachable states -/

/-- When both in-check flags are down, `changePlayer` leaves the flag of the new
player in turn equal to the answer of `checkForCheck` and the other flag down,
provided `checkForCheck` does not read the players' flags. -/
theorem changePlayer_flags_accurate (cc : CheckChecker)
    (hpure1 : ∀ (s : State) (b : Bool), cc.checkForCheck (s.setCurrentInCheck b) =
      cc.checkForCheck s)
    (hpure2 : ∀ (s : State) (b : Bool), cc.checkForCheck (s.setCurrentInCheckmate b) =
      cc.checkForCheck s)
    (x : State) (h1 : x.player1.inCheck = false) (h2 : x.player2.inCheck = false) :
    (Controller.changePlayer cc x).getCurrentPlayer.inCheck =
        cc.checkForCheck (Controller.changePlayer cc x) ∧
      (Controller.changePlayer cc x).getOtherPlayer.inCheck = false := by
  unfold Controller.changePlayer
  dsimp only
  by_cases hck : cc.checkForCheck x.nextPlayer = true
  · rw [if_pos hck, hpure2, hpure1, hck]
    cases hcf : x.currentIsFirst <;>
    simp [State.setCurrentInCheckmate, State.setCurrentInCheck, State.getCurrentPlayer,
      State.getOtherPlayer, State.nextPlayer, hcf, Player.setInCheck, Player.setInCheckmate,
      h1, h2]
  · rw [if_neg hck]
    have hck' : cc.checkForCheck x.nextPlayer = false := by
      cases h : cc.checkForCheck x.nextPlayer
      · rfl
      · exact absurd h hck
    rw [hck']
    cases hcf : x.currentIsFirst <;>
    simp [State.getCurrentPlayer, State.getOtherPlayer, State.nextPlayer, hcf, h1, h2]

theorem flags_of_current_other (s : State) (h1 : s.getCurrentPlayer.inCheck = false)
    (h2 : s.getOtherPlayer.inCheck = false) :
    s.player1.inCheck = false ∧ s.player2.inCheck = false := by
  unfold State.getCurrentPlayer at h1
  unfold State.getOtherPlayer at h2
  cases hcf : s.currentIsFirst <;> simp [hcf] at h1 h2
  · exact ⟨h2, h1⟩
  · exact ⟨h1, h2⟩

theorem afterMove_flags_down (s : State) (p : Piece) (source target : Coordinate)
    (hother : s.getOtherPlayer.inCheck = false) :
    (afterMove s p source target).player1.inCheck = false ∧
      (afterMove s p source target).player2.inCheck = false := by
  apply flags_of_current_other
  · have h := afterMove_mover_inCheck s p source target
    have hcur := afterMove_currentIsFirst s p source target
    unfold State.getCurrentPlayer
    unfold State.selectPlayer at h
    rw [hcur]
    exact h
  · rw [afterMove_getOtherPlayer]
    exact hother

/-- One game call keeps the in-check flags accurate, and keeps the cached pointer
dangling while promotion is pending. -/
theorem gameStep_flags_accurate (smh : SpecialMovesHandler) (cc : CheckChecker)
    (hpure1 : ∀ (s : State) (b : Bool), cc.checkForCheck (s.setCurrentInCheck b) =
      cc.checkForCheck s)
    (hpure2 : ∀ (s : State) (b : Bool), cc.checkForCheck (s.setCurrentInCheckmate b) =
      cc.checkForCheck s)
    (hcastle : ∀ (s : State) (source target : Coordinate) (p : Piece),
      target ∈ Controller.getValidMoves smh cc s source →
      s.getPiece source = some (PiecePtr.pointsTo p) →
      kingTwoColumns p source target → cc.checkForCheck s = false)
    (s s' : State) (hstep : GameStep smh cc s s') (hacc : checkFlagsAccurate cc s) :
    checkFlagsAccurate cc s' := by
  cases hstep with
  | move source target hmem hmove =>
    obtain ⟨p, hsp, hbranch⟩ := movePiece_some cc s s' source target hmove
    have hcastled : ∀ x : State, s' = Controller.changePlayer cc x →
        x.player1 = s.player1 → x.player2 = s.player2 →
        x.inPawnPromotion = s.inPawnPromotion →
        x.pawnInPromotionCoordinates = s.pawnInPromotionCoordinates →
        kingTwoColumns p source target →
        checkFlagsAccurate cc s' := by
      intro x hs' hx1 hx2 hxp hxc hk
      rw [hs']
      refine ⟨fun hp => ?_, fun hp => ?_⟩
      · rw [changePlayer_inPawnPromotion, hxp] at hp
        obtain ⟨hcur, hother⟩ := hacc.1 hp
        have hquiet := hcastle s source target p hmem hsp hk
        rw [hquiet] at hcur
        obtain ⟨f1, f2⟩ := flags_of_current_other s hcur hother
        exact changePlayer_flags_accurate cc hpure1 hpure2 x (by rw [hx1]; exact f1)
          (by rw [hx2]; exact f2)
      · rw [changePlayer_inPawnPromotion, hxp] at hp
        rw [changePlayer_pawnInPromotionCoordinates, hxc]
        exact hacc.2 hp
    rcases hbranch with ⟨hk, hcol, hc⟩ | ⟨hk, hcol, hc⟩ | ⟨-, -, -, hs'⟩
    · obtain ⟨-, -, -, -, rook, -, hs'⟩ := doCastle_some cc s s' p source _ target _
        (Coordinate.ne_of_column_ne (by omega))
        (Coordinate.ne_of_column_ne (by dsimp only; omega))
        (Coordinate.ne_of_column_ne (by dsimp only; omega))
        (Coordinate.ne_of_column_ne (by dsimp only; omega))
        (Coordinate.ne_of_column_ne (by dsimp only; omega)) hc
      exact hcastled _ hs' rfl rfl rfl rfl ⟨hk, Or.inl hcol⟩
    · obtain ⟨-, -, -, -, rook, -, hs'⟩ := doCastle_some cc s s' p source _ target _
        (Coordinate.ne_of_column_ne (by omega))
        (Coordinate.ne_of_column_ne (by dsimp only; omega))
        (Coordinate.ne_of_column_ne (by dsimp only; omega))
        (Coordinate.ne_of_column_ne (by dsimp only; omega))
        (Coordinate.ne_of_column_ne (by dsimp only; omega)) hc
      exact hcastled _ hs' rfl rfl rfl rfl ⟨hk, Or.inr hcol⟩
    · by_cases hflag : (afterMove s p source target).inPawnPromotion = true
      · rw [if_pos hflag] at hs'
        rw [hs']
        refine ⟨fun hp => ?_, fun _ => ?_⟩
        · rw [hflag] at hp
          exact absurd hp (by decide)
        · by_cases hfar : reachedFarRank p target
          · exact afterMove_cached s p source target hfar
          · rw [afterMove_cached_of_not_far s p source target hfar]
            rcases (afterMove_inPawnPromotion s p source target).1 hflag with h | h
            · exact hacc.2 h
            · exact absurd h hfar
      · rw [if_neg hflag] at hs'
        rw [hs']
        have hpend : s.inPawnPromotion = false := by
          cases h : s.inPawnPromotion
          · rfl
          · exact absurd ((afterMove_inPawnPromotion s p source target).2 (Or.inl h)) hflag
        obtain ⟨-, hother⟩ := hacc.1 hpend
        obtain ⟨f1, f2⟩ := afterMove_flags_down s p source target hother
        refine ⟨fun _ => changePlayer_flags_accurate cc hpure1 hpure2 _ f1 f2, ?_⟩
        intro hp
        rw [changePlayer_inPawnPromotion] at hp
        exact absurd hp hflag
  | promote T hpend hT hprom =>
    obtain ⟨c, pawn, hc, -, -⟩ := promotePown_some cc s s' T hprom
    rw [hacc.2 hpend] at hc
    exact absurd hc (by simp)

/-- What the example generator offers: never a cell holding a king, never a move
two columns to the left, and a move two columns to the right only as a castle,
when the player in turn is not attacked and the cell the king passes over is
empty. -/
theorem exampleMoves_mem (attacked : (Coordinate → PiecePtr) → Color → Bool) (s : State)
    (source target : Coordinate)
    (h : target ∈ (exampleMoves attacked).getValidMoves s source) :
    (∀ q : Piece, s.getPiece target = some (PiecePtr.pointsTo q) →
        q.type ≠ PieceType.ptKing) ∧
      target.column ≠ source.column - 2 ∧
      (target.column = source.column + 2 →
        attacked s.board s.getCurrentPlayer.color = false ∧
        s.getPiece ⟨target.row, target.column - 1⟩ = some PiecePtr.nullptr) := by
  simp only [exampleMoves] at h
  split at h
  · rename_i p hsp
    rw [List.mem_append] at h
    rcases h with h | h
    · rw [List.mem_filter] at h
      obtain ⟨hn, hland⟩ := h
      have hcol : target.column = source.column - 1 ∨ target.column = source.column ∨
          target.column = source.column + 1 := by
        simp only [neighbours, List.mem_cons, List.mem_nil_iff, or_false] at hn
        rcases hn with rfl | rfl | rfl | rfl | rfl | rfl | rfl | rfl <;> simp
      refine ⟨?_, by omega, fun h2 => by omega⟩
      intro q hq
      simp only [mayLandOn, hq, Bool.and_eq_true, bne_iff_ne, ne_eq] at hland
      exact hland.2
    · split at h
      · rename_i hcond
        rw [List.mem_singleton] at h
        subst h
        simp only [Bool.and_eq_true, decide_eq_true_eq, Bool.not_eq_true'] at hcond
        obtain ⟨⟨⟨⟨-, h1⟩, h2⟩, -⟩, hatt⟩ := hcond
        refine ⟨?_, by dsimp only; omega, fun _ => ⟨hatt, ?_⟩⟩
        · intro q hq
          rw [h2] at hq
          exact absurd hq (by simp)
        · have e : (⟨source.row, source.column + 2 - 1⟩ : Coordinate) =
              ⟨source.row, source.column + 1⟩ := by congr 1; omega
          dsimp only
          rw [e]
          exact h1
      · exact absurd h (List.not_mem_nil _)
  · exact absurd h (List.not_mem_nil _)

/-- With the checker modelled from the specification, the controller only offers
moves the generator offers. -/
theorem getValidMoves_simulating_subset (smh smh' : SpecialMovesHandler)
    (attacked : (Coordinate → PiecePtr) → Color → Bool) (s : State)
    (source target : Coordinate)
    (h : target ∈ Controller.getValidMoves smh (simulatingChecker smh' attacked) s source) :
    target ∈ smh.getValidMoves s source := by
  unfold Controller.getValidMoves at h
  split at h
  · exact absurd h (List.not_mem_nil _)
  · simp only [simulatingChecker, filterBySimulation] at h
    exact (List.mem_filter.1 h).1

theorem simulatingChecker_pure1 (smh : SpecialMovesHandler)
    (attacked : (Coordinate → PiecePtr) → Color → Bool) (s : State) (b : Bool) :
    (simulatingChecker smh attacked).checkForCheck (s.setCurrentInCheck b) =
      (simulatingChecker smh attacked).checkForCheck s := by
  cases hcf : s.currentIsFirst <;>
  simp [simulatingChecker, State.setCurrentInCheck, State.getCurrentPlayer, hcf,
    Player.setInCheck]

theorem simulatingChecker_pure2 (smh : SpecialMovesHandler)
    (attacked : (Coordinate → PiecePtr) → Color → Bool) (s : State) (b : Bool) :
    (simulatingChecker smh attacked).checkForCheck (s.setCurrentInCheckmate b) =
      (simulatingChecker smh attacked).checkForCheck s := by
  cases hcf : s.currentIsFirst <;>
  simp [simulatingChecker, State.setCurrentInCheckmate, State.getCurrentPlayer, hcf,
    Player.setInCheckmate]

/-- With the example generator, castling is offered only when `checkForCheck`
denies check for the player in turn. -/
theorem fileMoves_castle_only_when_quiet (s : State) (source target : Coordinate) (p : Piece)
    (hmem : target ∈ Controller.getValidMoves fileMoves fileChecker s source)
    (hk : kingTwoColumns p source target) :
    fileChecker.checkForCheck s = false := by
  have h := exampleMoves_mem rookOnFile s source target
    (getValidMoves_simulating_subset fileMoves fileMoves rookOnFile s source target hmem)
  rcases hk.2 with hl | hr
  · exact absurd hl h.2.1
  · exact (h.2.2 hr).1

/-- With the variant generator, a castle is offered only when the king that
castles is not attacked. -/
theorem ownKingMoves_castle (attacked : (Coordinate → PiecePtr) → Color → Bool) (s : State)
    (source target : Coordinate) (p : Piece)
    (h : target ∈ (ownKingMoves attacked).getValidMoves s source)
    (hsp : s.getPiece source = some (PiecePtr.pointsTo p))
    (hk : kingTwoColumns p source target) :
    attacked s.board p.color = false := by
  simp only [ownKingMoves, hsp] at h
  rw [List.mem_append] at h
  rcases h with h | h
  · rw [List.mem_filter] at h
    have hcol : target.column = source.column - 1 ∨ target.column = source.column ∨
        target.column = source.column + 1 := by
      have hn := h.1
      simp only [neighbours, List.mem_cons, List.mem_nil_iff, or_false] at hn
      rcases hn with rfl | rfl | rfl | rfl | rfl | rfl | rfl | rfl <;> simp
    have := hk.2
    omega
  · split at h
    · rename_i hcond
      simp only [Bool.and_eq_true, decide_eq_true_eq, Bool.not_eq_true'] at hcond
      exact hcond.2
    · exact absurd h (List.not_mem_nil _)

/-! ## The in-check flags along two example games -/

/-- What `movePiece` returns for the pawn step (3,7) → (3,6) from `discoveryStart`. -/
theorem discoveredCheck_reached (cc : CheckChecker) :
    Controller.movePiece cc discoveryStart ⟨3, 7⟩ ⟨3, 6⟩ = some (discoveredCheck cc) := by
  have hflag : ¬ (afterMove discoveryStart whitePawn ⟨3, 7⟩ ⟨3, 6⟩).inPawnPromotion = true := by
    rw [afterMove_inPawnPromotion]
    simp [discoveryStart, reachedFarRank, whitePawn]
  rw [movePiece_ordinary_eq cc discoveryStart ⟨3, 7⟩ ⟨3, 6⟩ whitePawn PiecePtr.nullptr
    (by decide) (by simp [kingTwoColumns, whitePawn]) (by decide) (by decide) (by decide),
    if_neg hflag]
  rfl

end Chess
